import Mathlib

/-!
# kube-ecr-cleanup-controller: the cleanup pass and its scheduler

A shallow embedding of `core/processor.go`.

* The two clients are Go interfaces whose methods talk to the cluster and to
  the registry.  A method is embedded as a function that takes the state of
  the outside world and returns its answer together with the next state, so a
  client may answer differently each time it is asked.
* Every call a pass makes is written to a log, together with the answer it
  got.  The log is how statements such as "no deletion call is issued" are
  expressed.
* `ECRImagesFromPods` and `FilterOldUnusedImages` live in other files of the
  package; the pass takes them as parameters.
* `glog.Info`, `glog.Infof` only write diagnostics and are left out.
* A nil `RepositoryName` makes the dereference on line 63 panic; a pass
  therefore ends in an `Outcome`, returned or panicked.
* `ImageCleanupLoop` starts a goroutine.  Its body is embedded as a step
  function on the events its `select` takes; `glog.Fatalf` ends the process
  (phase `Exited`), a panic inside a pass crashes it (phase `Crashed`).
-/

namespace Core

/-! ## Go values -/

/-- The Go `error` value, as far as this file looks at it: the text that `%v`
prints for it. -/
structure GoError where
  msg : String
deriving DecidableEq, Repr

/-- The Go slice value: the nil slice, or a non-nil slice holding elements. -/
inductive Slice (α : Type) where
  | nil : Slice α
  | mk (elems : List α) : Slice α
deriving DecidableEq, Repr

/-- Elements of a slice; the nil slice has none. -/
def Slice.toList {α : Type} : Slice α → List α
  | .nil => []
  | .mk xs => xs

/-- Go `append(s, x)`: the result is never the nil slice. -/
def Slice.append {α : Type} (s : Slice α) (x : α) : Slice α :=
  .mk (s.toList ++ [x])

/-- Go `len(s)`. -/
def Slice.len {α : Type} (s : Slice α) : Nat :=
  s.toList.length

/-- The Go map with string keys, read-only here. -/
abbrev GoMap (V : Type) := String → Option V

/-- Go `m[k]` for a map of slices: the zero value (no elements) when `k` is
absent. -/
def GoMap.index {V : Type} (m : GoMap (List V)) (k : String) : List V :=
  (m k).getD []

/-! ## Data declared elsewhere in the package -/

/-- The fields of `CleanupTask` that `processor.go` reads. -/
structure CleanupTask where
  KubeConfig : String
  AwsRegion : String
  Interval : Int
  KubeNamespaces : List String
  EcrRepositories : List String
  MaxImages : Int
deriving DecidableEq, Repr

/-- An entry of the list returned by `ListRepositories`.  The loop reads
`*repo.RepositoryName`: the field is a pointer, `none` is the nil pointer. -/
structure Repository where
  RepositoryName : Option String
deriving DecidableEq, Repr

/-- Interface `KubernetesClient` over a world `σ`. -/
structure KubernetesClient (σ Pod : Type) where
  ListAllPods : List String → σ → Except GoError (List Pod) × σ

/-- Interface `ECRClient` over a world `σ`.  `BatchRemoveImages` returns
`none` for a nil error. -/
structure ECRClient (σ Image : Type) where
  ListRepositories : List String → σ → Except GoError (List Repository) × σ
  ListImages : String → σ → Except GoError (List Image) × σ
  BatchRemoveImages : String → List Image → σ → Option GoError × σ

/-- The two functions of the package that the pass calls and that are defined
outside `processor.go`. -/
structure Helpers (Pod Image Ident : Type) where
  ECRImagesFromPods : String → List Pod → GoMap (List Ident)
  FilterOldUnusedImages : Int → List Image → List Ident → List Image

/-! ## The call log -/

/-- One call made on a client, with the answer it received. -/
inductive Call (Pod Image : Type) where
  | ListAllPods (namespaces : List String) (result : Except GoError (List Pod))
  | ListRepositories (names : List String) (result : Except GoError (List Repository))
  | ListImages (repositoryName : String) (result : Except GoError (List Image))
  | BatchRemoveImages (repositoryName : String) (images : List Image) (result : Option GoError)

/-- State threaded through a pass: the outside world, the log of calls made so
far, and the local variable `errors`. -/
structure PassState (σ Pod Image : Type) where
  world : σ
  calls : List (Call Pod Image)
  errors : Slice GoError

/-- How a piece of Go code ends: by returning, or by a nil-pointer panic.
Either way the state reached is kept. -/
inductive Outcome (α : Type) where
  | returned (a : α) : Outcome α
  | panicked (a : α) : Outcome α

/-- The state an outcome ended in. -/
def Outcome.state {α : Type} : Outcome α → α
  | .returned a => a
  | .panicked a => a

/-- Whether the outcome is a panic. -/
def Outcome.isPanic {α : Type} : Outcome α → Bool
  | .returned _ => false
  | .panicked _ => true

/-! ## `RemoveOldImages` -/

/-- Body of the `for _, repo := range repos` loop (lines 63-84). -/
def processRepo {σ Pod Image Ident : Type} (t : CleanupTask) (ecrClient : ECRClient σ Image)
    (h : Helpers Pod Image Ident) (usedImages : GoMap (List Ident))
    (repo : Repository) (st : PassState σ Pod Image) : Outcome (PassState σ Pod Image) :=
  match repo.RepositoryName with
  | none => .panicked st
  | some repoName =>
    match ecrClient.ListImages repoName st.world with
    | (.error err, w) =>
      .returned
        { world := w
          calls := st.calls ++ [.ListImages repoName (.error err)]
          errors := st.errors.append
            ⟨"Cannot list images from repo '" ++ repoName ++ "': " ++ err.msg⟩ }
    | (.ok images, w) =>
      let unusedImages := h.FilterOldUnusedImages t.MaxImages images (usedImages.index repoName)
      if unusedImages.length = 0 then
        .returned
          { world := w
            calls := st.calls ++ [.ListImages repoName (.ok images)]
            errors := st.errors }
      else
        match ecrClient.BatchRemoveImages repoName unusedImages w with
        | (some err, w') =>
          .returned
            { world := w'
              calls := st.calls ++ [.ListImages repoName (.ok images),
                .BatchRemoveImages repoName unusedImages (some err)]
              errors := st.errors.append
                ⟨"Could not batch remove images from repo '" ++ repoName ++ "': " ++ err.msg⟩ }
        | (none, w') =>
          .returned
            { world := w'
              calls := st.calls ++ [.ListImages repoName (.ok images),
                .BatchRemoveImages repoName unusedImages none]
              errors := st.errors }

/-- The loop `for _, repo := range repos` (lines 62-85): the body once per
entry, in order; a panic ends it. -/
def forRepos {σ Pod Image Ident : Type} (t : CleanupTask) (ecrClient : ECRClient σ Image)
    (h : Helpers Pod Image Ident) (usedImages : GoMap (List Ident)) :
    List Repository → PassState σ Pod Image → Outcome (PassState σ Pod Image)
  | [], st => .returned st
  | repo :: rest, st =>
    match processRepo t ecrClient h usedImages repo st with
    | .returned st' => forRepos t ecrClient h usedImages rest st'
    | .panicked st' => .panicked st'

/-- Method `RemoveOldImages` (lines 41-90), started in world `w`.  The
`errors` field of the state returned is the value the Go function returns. -/
def RemoveOldImages {σ Pod Image Ident : Type} (t : CleanupTask)
    (kubeClient : KubernetesClient σ Pod) (ecrClient : ECRClient σ Image)
    (h : Helpers Pod Image Ident) (w : σ) : Outcome (PassState σ Pod Image) :=
  let errors : Slice GoError := .mk []
  match kubeClient.ListAllPods t.KubeNamespaces w with
  | (.error err, w1) =>
    .returned
      { world := w1
        calls := [.ListAllPods t.KubeNamespaces (.error err)]
        errors := errors.append ⟨"Cannot list pods: " ++ err.msg⟩ }
  | (.ok pods, w1) =>
    let usedImages := h.ECRImagesFromPods t.AwsRegion pods
    match ecrClient.ListRepositories t.EcrRepositories w1 with
    | (.error err, w2) =>
      .returned
        { world := w2
          calls := [.ListAllPods t.KubeNamespaces (.ok pods),
            .ListRepositories t.EcrRepositories (.error err)]
          errors := errors.append ⟨"Cannot list ECR repositories: " ++ err.msg⟩ }
    | (.ok repos, w2) =>
      forRepos t ecrClient h usedImages repos
        { world := w2
          calls := [.ListAllPods t.KubeNamespaces (.ok pods),
            .ListRepositories t.EcrRepositories (.ok repos)]
          errors := errors }

/-- The state in which `RemoveOldImages` enters its loop (line 62): both
listings succeeded, `errors` is still the empty non-nil slice. -/
def loopEntry {σ Pod Image : Type} (t : CleanupTask) (pods : List Pod)
    (repos : List Repository) (w2 : σ) : PassState σ Pod Image :=
  { world := w2
    calls := [.ListAllPods t.KubeNamespaces (.ok pods),
      .ListRepositories t.EcrRepositories (.ok repos)]
    errors := .mk [] }

/-! ## Reading the call log -/

/-- The repository a call is addressed to, for the two per-repository calls. -/
def Call.repositoryName? {Pod Image : Type} : Call Pod Image → Option String
  | .ListImages r _ => some r
  | .BatchRemoveImages r _ _ => some r
  | _ => none

/-- Whether a call is a `ListImages` or `BatchRemoveImages` call for `r`. -/
def Call.isAbout {Pod Image : Type} (r : String) (c : Call Pod Image) : Bool :=
  c.repositoryName? == some r

/-- Whether a call is a `ListImages` call. -/
def Call.isListImages {Pod Image : Type} : Call Pod Image → Bool
  | .ListImages _ _ => true
  | _ => false

/-- Whether a call is a `BatchRemoveImages` call. -/
def Call.isRemoval {Pod Image : Type} : Call Pod Image → Bool
  | .BatchRemoveImages _ _ _ => true
  | _ => false

/-- Whether a call is a `BatchRemoveImages` call for `r`. -/
def Call.isRemovalFor {Pod Image : Type} (r : String) (c : Call Pod Image) : Bool :=
  c.isRemoval && c.isAbout r

/-- Whether the call was answered with an error. -/
def Call.failed {Pod Image : Type} : Call Pod Image → Bool
  | .ListAllPods _ (.error _) => true
  | .ListRepositories _ (.error _) => true
  | .ListImages _ (.error _) => true
  | .BatchRemoveImages _ _ (some _) => true
  | _ => false

/-- What the log shows for one repository of the list: the inventory call
with its answer and, when a deletion call was issued, its argument and
answer. -/
structure Visit (Image : Type) where
  repositoryName : String
  listed : Except GoError (List Image)
  removal : Option (List Image × Option GoError)

/-- The list entry a visit belongs to. -/
def Visit.repository {Image : Type} (v : Visit Image) : Repository :=
  ⟨some v.repositoryName⟩

/-- The calls of a visit, in the order they were made. -/
def Visit.calls {Pod Image : Type} (v : Visit Image) : List (Call Pod Image) :=
  Call.ListImages v.repositoryName v.listed ::
    match v.removal with
    | none => []
    | some (images, result) => [Call.BatchRemoveImages v.repositoryName images result]

/-- The error a visit contributes to the result of the pass: one when the
inventory call failed, one when the deletion call failed, none otherwise. -/
def Visit.error {Image : Type} (v : Visit Image) : Option GoError :=
  match v.listed with
  | .error err =>
    some ⟨"Cannot list images from repo '" ++ v.repositoryName ++ "': " ++ err.msg⟩
  | .ok _ =>
    match v.removal with
    | some (_, some err) =>
      some ⟨"Could not batch remove images from repo '" ++ v.repositoryName ++ "': " ++ err.msg⟩
    | _ => none

/-- The deletion set of a visit whose inventory call succeeded. -/
def Visit.deletionSet {Pod Image Ident : Type} (t : CleanupTask) (h : Helpers Pod Image Ident)
    (usedImages : GoMap (List Ident)) (repositoryName : String) (images : List Image) :
    List Image :=
  h.FilterOldUnusedImages t.MaxImages images (usedImages.index repositoryName)

/-- A visit follows the rules of the loop body: no deletion call after a
failed inventory call or for an empty deletion set, otherwise one deletion
call carrying the whole deletion set. -/
def Visit.Regular {Pod Image Ident : Type} (t : CleanupTask) (h : Helpers Pod Image Ident)
    (usedImages : GoMap (List Ident)) (v : Visit Image) : Prop :=
  match v.listed with
  | .error _ => v.removal = none
  | .ok images =>
    (Visit.deletionSet t h usedImages v.repositoryName images = [] ∧ v.removal = none) ∨
    (Visit.deletionSet t h usedImages v.repositoryName images ≠ [] ∧
      ∃ result, v.removal
        = some (Visit.deletionSet t h usedImages v.repositoryName images, result))

/-- The relation `R` between the worlds of two passes hides repository `r`:
in related worlds the two registry clients answer alike about every other
repository and leave related worlds, and whatever either client does for `r`
leaves the worlds related. -/
structure Isolates {σ Image : Type} (r : String) (ecr ecr' : ECRClient σ Image)
    (R : σ → σ → Prop) : Prop where
  listImages : ∀ n, n ≠ r → ∀ a b, R a b →
    (ecr.ListImages n a).1 = (ecr'.ListImages n b).1 ∧
    R (ecr.ListImages n a).2 (ecr'.ListImages n b).2
  batchRemoveImages : ∀ n, n ≠ r → ∀ imgs a b, R a b →
    (ecr.BatchRemoveImages n imgs a).1 = (ecr'.BatchRemoveImages n imgs b).1 ∧
    R (ecr.BatchRemoveImages n imgs a).2 (ecr'.BatchRemoveImages n imgs b).2
  listLeft : ∀ a b, R a b → R (ecr.ListImages r a).2 b
  removeLeft : ∀ imgs a b, R a b → R (ecr.BatchRemoveImages r imgs a).2 b
  listRight : ∀ a b, R a b → R a (ecr'.ListImages r b).2
  removeRight : ∀ imgs a b, R a b → R a (ecr'.BatchRemoveImages r imgs b).2

/-! ## `ImageCleanupLoop` -/

/-- Where the goroutine started by `ImageCleanupLoop` stands.  `Exited` is the
process ended by `glog.Fatalf` (which logs the message and exits the
process); `Crashed` is the process ended by a panic inside a pass. -/
inductive Phase where
  | Running : Phase
  | Stopped : Phase
  | Exited (fatal : String) : Phase
  | Crashed : Phase
deriving DecidableEq, Repr

/-- Whether the process was ended by `glog.Fatalf`. -/
def Phase.isExited : Phase → Bool
  | .Exited _ => true
  | _ => false

/-- The two cases of the `select` statement. -/
inductive Event where
  | intervalElapsed : Event
  | stopSignal : Event
deriving DecidableEq, Repr

/-- State of the goroutine: its phase, the outside world, the number of
passes started, every call made, the errors written with `glog.Error`, and
the number of `wg.Done()` calls. -/
structure LoopState (σ Pod Image : Type) where
  phase : Phase
  world : σ
  passes : Nat
  calls : List (Call Pod Image)
  logged : List GoError
  wgDone : Nat

/-- The functions `NewKubernetesClient` and `NewECRClient`, defined outside
`processor.go`. -/
structure Constructors (σ Pod Image : Type) where
  NewKubernetesClient : String → Except GoError (KubernetesClient σ Pod)
  NewECRClient : String → Except GoError (ECRClient σ Image)

/-- One turn of `for { select { ... } }` (lines 23-37) on the event that the
`select` takes.  Outside `Running` the goroutine is gone and nothing
happens. -/
def loopStep {σ Pod Image Ident : Type} (t : CleanupTask)
    (kubeClient : KubernetesClient σ Pod) (ecrClient : ECRClient σ Image)
    (h : Helpers Pod Image Ident) (s : LoopState σ Pod Image) (ev : Event) :
    LoopState σ Pod Image :=
  match s.phase with
  | .Running =>
    match ev with
    | .intervalElapsed =>
      match RemoveOldImages t kubeClient ecrClient h s.world with
      | .returned st =>
        { phase := .Running
          world := st.world
          passes := s.passes + 1
          calls := s.calls ++ st.calls
          logged := if st.errors.len > 0 then s.logged ++ st.errors.toList else s.logged
          wgDone := s.wgDone }
      | .panicked st =>
        { phase := .Crashed
          world := st.world
          passes := s.passes + 1
          calls := s.calls ++ st.calls
          logged := s.logged
          wgDone := s.wgDone }
    | .stopSignal => { s with phase := .Stopped, wgDone := s.wgDone + 1 }
  | _ => s

/-- The goroutine of `ImageCleanupLoop` (lines 12-38), started in world `w`
and fed the events its `select` takes, in order. -/
def ImageCleanupLoop {σ Pod Image Ident : Type} (t : CleanupTask)
    (c : Constructors σ Pod Image) (h : Helpers Pod Image Ident) (w : σ)
    (events : List Event) : LoopState σ Pod Image :=
  match c.NewKubernetesClient t.KubeConfig with
  | .error err =>
    { phase := .Exited ("Cannot create Kubernetes client: " ++ err.msg)
      world := w, passes := 0, calls := [], logged := [], wgDone := 0 }
  | .ok kubeClient =>
    match c.NewECRClient t.AwsRegion with
    | .error err =>
      { phase := .Exited ("Cannot create ECR client: " ++ err.msg)
        world := w, passes := 0, calls := [], logged := [], wgDone := 0 }
    | .ok ecrClient =>
      events.foldl (loopStep t kubeClient ecrClient h)
        { phase := .Running, world := w, passes := 0, calls := [], logged := [], wgDone := 0 }

/-! ## Fixtures: a small registry and cluster used to run the definitions -/

/-- The task of the examples: keep at most two images per repository. -/
def exTask : CleanupTask :=
  { KubeConfig := "", AwsRegion := "eu-west-1", Interval := 30,
    KubeNamespaces := ["default"], EcrRepositories := ["app", "web", "db"], MaxImages := 2 }

/-- Example helpers: pods are named by the image they run in repository
`app`; the filter drops the images in use and keeps the first `keepMax` of
the others. -/
def exHelpers : Helpers Nat Nat Nat :=
  { ECRImagesFromPods := fun _ pods => fun repo => if repo = "app" then some pods else none
    FilterOldUnusedImages := fun keepMax images used =>
      (images.filter (fun i => !used.contains i)).drop keepMax.toNat }

/-- A cluster client that answers with two pods. -/
def exKube : KubernetesClient Nat Nat :=
  { ListAllPods := fun _ w => (.ok [5, 7], w + 1) }

/-- A cluster client whose pod listing fails. -/
def exKubeDown : KubernetesClient Nat Nat :=
  { ListAllPods := fun _ w => (.error ⟨"timeout"⟩, w + 1) }

/-- A registry client with three repositories; the inventory of `web` cannot
be listed, and deleting from `db` fails.  The world counts the calls. -/
def exEcr : ECRClient Nat Nat :=
  { ListRepositories := fun _ w => (.ok [⟨some "app"⟩, ⟨some "web"⟩, ⟨some "db"⟩], w + 1)
    ListImages := fun repo w =>
      if repo = "web" then (.error ⟨"denied"⟩, w + 1)
      else if repo = "app" then (.ok [9, 7, 5, 3, 1], w + 1)
      else (.ok [4, 3, 2], w + 1)
    BatchRemoveImages := fun repo _ w =>
      if repo = "db" then (some ⟨"throttled"⟩, w + 1) else (none, w + 1) }

/-- A registry client whose second repository comes without a name. -/
def exEcrUnnamed : ECRClient Nat Nat :=
  { exEcr with
    ListRepositories := fun _ w => (.ok [⟨some "app"⟩, ⟨none⟩, ⟨some "db"⟩], w + 1) }

/-- A registry client whose repository listing fails. -/
def exEcrDown : ECRClient Nat Nat :=
  { exEcr with ListRepositories := fun _ w => (.error ⟨"no credentials"⟩, w + 1) }

/-- The state of the example pass after the visit of `app`. -/
def exAfterApp : PassState Nat Nat Nat :=
  { world := 4
    calls := [.ListAllPods ["default"] (.ok [5, 7]),
      .ListRepositories ["app", "web", "db"] (.ok [⟨some "app"⟩, ⟨some "web"⟩, ⟨some "db"⟩]),
      .ListImages "app" (.ok [9, 7, 5, 3, 1]),
      .BatchRemoveImages "app" [1] none]
    errors := .mk [] }

/-- The example registry with every deletion succeeding: the inventory of
`web` is the only call that fails. -/
def exEcrWebDown : ECRClient Nat Nat :=
  { exEcr with BatchRemoveImages := fun _ _ w => (none, w + 1) }

/-- The registry `exEcrWebDown` with the inventory of `web` readable. -/
def exEcrWebUp : ECRClient Nat Nat :=
  { exEcrWebDown with
    ListImages := fun repo w =>
      if repo = "web" then (.ok [8, 6, 4, 2], w + 1) else exEcrWebDown.ListImages repo w }

/-- The example registry listing its repositories in the order `web`, `db`,
`app`, so that a repository follows the one whose deletion fails. -/
def exEcrReordered : ECRClient Nat Nat :=
  { exEcr with
    ListRepositories := fun _ w => (.ok [⟨some "web"⟩, ⟨some "db"⟩, ⟨some "app"⟩], w + 1) }

/-- The state of the pass against `exEcrReordered` after the visit of `web`. -/
def exAfterWebFirst : PassState Nat Nat Nat :=
  { world := 3
    calls := [.ListAllPods ["default"] (.ok [5, 7]),
      .ListRepositories ["app", "web", "db"] (.ok [⟨some "web"⟩, ⟨some "db"⟩, ⟨some "app"⟩]),
      .ListImages "web" (.error ⟨"denied"⟩)]
    errors := .mk [⟨"Cannot list images from repo 'web': denied"⟩] }

/-- Both clients can be constructed. -/
def exConstructors : Constructors Nat Nat Nat :=
  { NewKubernetesClient := fun _ => .ok exKube
    NewECRClient := fun _ => .ok exEcr }

/-- The cluster client cannot be constructed. -/
def exNoKube : Constructors Nat Nat Nat :=
  { NewKubernetesClient := fun _ => .error ⟨"no kubeconfig"⟩
    NewECRClient := fun _ => .ok exEcr }

/-- A goroutine that has run one pass on the example registry. -/
def exRunning : LoopState Nat Nat Nat :=
  { phase := .Running, world := 7, passes := 1, calls := [], logged := [], wgDone := 0 }

/-! ## The loop, one repository at a time -/

theorem Slice.toList_append {α : Type} (s : Slice α) (x : α) :
    (s.append x).toList = s.toList ++ [x] := rfl

theorem Slice.append_ne_nil {α : Type} (s : Slice α) (x : α) : s.append x ≠ .nil := by
  simp [Slice.append]

/-- The loop body on a named entry returns, and what it did is a regular visit
of that repository whose inventory answer is the one the client gave. -/
theorem processRepo_visit {σ Pod Image Ident : Type} (t : CleanupTask)
    (ecrClient : ECRClient σ Image) (h : Helpers Pod Image Ident)
    (usedImages : GoMap (List Ident)) (n : String) (st : PassState σ Pod Image) :
    ∃ v : Visit Image,
      (processRepo t ecrClient h usedImages ⟨some n⟩ st).isPanic = false ∧
      v.repositoryName = n ∧
      v.listed = (ecrClient.ListImages n st.world).1 ∧
      v.Regular t h usedImages ∧
      (processRepo t ecrClient h usedImages ⟨some n⟩ st).state.calls = st.calls ++ v.calls ∧
      (processRepo t ecrClient h usedImages ⟨some n⟩ st).state.errors.toList
        = st.errors.toList ++ v.error.toList ∧
      (st.errors ≠ .nil →
        (processRepo t ecrClient h usedImages ⟨some n⟩ st).state.errors ≠ .nil) ∧
      (v.removal = none →
        (processRepo t ecrClient h usedImages ⟨some n⟩ st).state.world
          = (ecrClient.ListImages n st.world).2) ∧
      (∀ imgs res, v.removal = some (imgs, res) →
        res = (ecrClient.BatchRemoveImages n imgs (ecrClient.ListImages n st.world).2).1 ∧
        (processRepo t ecrClient h usedImages ⟨some n⟩ st).state.world
          = (ecrClient.BatchRemoveImages n imgs (ecrClient.ListImages n st.world).2).2) := by
  rcases hl : ecrClient.ListImages n st.world with ⟨res, w⟩
  cases res with
  | error err =>
    refine ⟨⟨n, .error err, none⟩, ?_, rfl, rfl, ?_, ?_, ?_, ?_, ?_, ?_⟩
    · simp [processRepo, hl, Outcome.isPanic]
    · simp [Visit.Regular]
    · simp [processRepo, hl, Outcome.state, Visit.calls]
    · simp [processRepo, hl, Outcome.state, Visit.error, Slice.toList_append]
    · intro _
      simp [processRepo, hl, Outcome.state, Slice.append]
    · intro _
      simp [processRepo, hl, Outcome.state]
    · intro imgs res hrm
      simp at hrm
  | ok images =>
    by_cases hd : (h.FilterOldUnusedImages t.MaxImages images (usedImages.index n)).length = 0
    · refine ⟨⟨n, .ok images, none⟩, ?_, rfl, rfl, ?_, ?_, ?_, ?_, ?_, ?_⟩
      · simp [processRepo, hl, hd, Outcome.isPanic]
      · left
        exact ⟨List.length_eq_zero.mp hd, rfl⟩
      · simp [processRepo, hl, hd, Outcome.state, Visit.calls]
      · simp [processRepo, hl, hd, Outcome.state, Visit.error]
      · simp [processRepo, hl, hd, Outcome.state]
      · intro _
        simp [processRepo, hl, hd, Outcome.state]
      · intro imgs res hrm
        simp at hrm
    · rcases hb : ecrClient.BatchRemoveImages n
        (h.FilterOldUnusedImages t.MaxImages images (usedImages.index n)) w with ⟨r, w'⟩
      have hne : Visit.deletionSet t h usedImages n images ≠ [] := by
        intro hc
        exact hd (by simpa [Visit.deletionSet] using congrArg List.length hc)
      cases r with
      | some err =>
        refine ⟨⟨n, .ok images, some (Visit.deletionSet t h usedImages n images, some err)⟩,
          ?_, rfl, rfl, ?_, ?_, ?_, ?_, ?_, ?_⟩
        · simp [processRepo, hl, hd, hb, Outcome.isPanic]
        · right
          exact ⟨hne, _, rfl⟩
        · simp [processRepo, hl, hd, hb, Outcome.state, Visit.calls, Visit.deletionSet]
        · simp [processRepo, hl, hd, hb, Outcome.state, Visit.error, Slice.toList_append]
        · intro _
          simp [processRepo, hl, hd, hb, Outcome.state, Slice.append]
        · intro hrm
          simp at hrm
        · intro imgs res hrm
          simp only [Option.some.injEq, Prod.mk.injEq] at hrm
          obtain ⟨rfl, rfl⟩ := hrm
          simp [processRepo, hl, hd, hb, Outcome.state, Visit.deletionSet]
      | none =>
        refine ⟨⟨n, .ok images, some (Visit.deletionSet t h usedImages n images, none)⟩,
          ?_, rfl, rfl, ?_, ?_, ?_, ?_, ?_, ?_⟩
        · simp [processRepo, hl, hd, hb, Outcome.isPanic]
        · right
          exact ⟨hne, _, rfl⟩
        · simp [processRepo, hl, hd, hb, Outcome.state, Visit.calls, Visit.deletionSet]
        · simp [processRepo, hl, hd, hb, Outcome.state, Visit.error]
        · simp [processRepo, hl, hd, hb, Outcome.state]
        · intro hrm
          simp at hrm
        · intro imgs res hrm
          simp only [Option.some.injEq, Prod.mk.injEq] at hrm
          obtain ⟨rfl, rfl⟩ := hrm
          simp [processRepo, hl, hd, hb, Outcome.state, Visit.deletionSet]

theorem forRepos_nil {σ Pod Image Ident : Type} (t : CleanupTask)
    (ecrClient : ECRClient σ Image) (h : Helpers Pod Image Ident)
    (usedImages : GoMap (List Ident)) (st : PassState σ Pod Image) :
    forRepos t ecrClient h usedImages [] st = .returned st := rfl

theorem forRepos_cons {σ Pod Image Ident : Type} (t : CleanupTask)
    (ecrClient : ECRClient σ Image) (h : Helpers Pod Image Ident)
    (usedImages : GoMap (List Ident)) (repo : Repository) (rest : List Repository)
    (st : PassState σ Pod Image) :
    forRepos t ecrClient h usedImages (repo :: rest) st
      = match processRepo t ecrClient h usedImages repo st with
        | .returned st' => forRepos t ecrClient h usedImages rest st'
        | .panicked st' => .panicked st' := rfl

/-- The loop over `pre ++ post` is the loop over `pre` followed, unless it
panicked, by the loop over `post`. -/
theorem forRepos_append {σ Pod Image Ident : Type} (t : CleanupTask)
    (ecrClient : ECRClient σ Image) (h : Helpers Pod Image Ident)
    (usedImages : GoMap (List Ident)) (pre post : List Repository)
    (st : PassState σ Pod Image) :
    forRepos t ecrClient h usedImages (pre ++ post) st
      = match forRepos t ecrClient h usedImages pre st with
        | .returned st' => forRepos t ecrClient h usedImages post st'
        | .panicked st' => .panicked st' := by
  induction pre generalizing st with
  | nil => simp [forRepos_nil]
  | cons repo rest ih =>
    simp only [List.cons_append, forRepos_cons]
    cases processRepo t ecrClient h usedImages repo st with
    | returned st' => exact ih st'
    | panicked st' => rfl

/-- What the loop does on any list: it visits the entries in order up to the
first one without a name, every visit is regular, the log grows by the calls
of the visits and `errors` by their errors. -/
theorem forRepos_visits {σ Pod Image Ident : Type} (t : CleanupTask)
    (ecrClient : ECRClient σ Image) (h : Helpers Pod Image Ident)
    (usedImages : GoMap (List Ident)) (repos : List Repository)
    (st : PassState σ Pod Image) :
    ∃ vs : List (Visit Image),
      (∀ v ∈ vs, v.Regular t h usedImages) ∧
      (forRepos t ecrClient h usedImages repos st).state.calls
        = st.calls ++ vs.flatMap Visit.calls ∧
      (forRepos t ecrClient h usedImages repos st).state.errors.toList
        = st.errors.toList ++ vs.filterMap Visit.error ∧
      (st.errors ≠ .nil → (forRepos t ecrClient h usedImages repos st).state.errors ≠ .nil) ∧
      (((forRepos t ecrClient h usedImages repos st).isPanic = false ∧
          repos = vs.map Visit.repository) ∨
       ((forRepos t ecrClient h usedImages repos st).isPanic = true ∧
          ∃ post, repos = vs.map Visit.repository ++ ⟨none⟩ :: post)) := by
  induction repos generalizing st with
  | nil =>
    exact ⟨[], by simp, by simp [forRepos_nil, Outcome.state],
      by simp [forRepos_nil, Outcome.state], by simp [forRepos_nil, Outcome.state],
      Or.inl ⟨rfl, rfl⟩⟩
  | cons repo rest ih =>
    rcases repo with ⟨_ | n⟩
    · refine ⟨[], by simp, ?_, ?_, ?_, Or.inr ⟨?_, rest, rfl⟩⟩ <;>
        simp [forRepos_cons, processRepo, Outcome.state, Outcome.isPanic]
    · obtain ⟨v, hret, hn, -, hreg, hcalls, herrs, hnil, -⟩ :=
        processRepo_visit t ecrClient h usedImages n st
      obtain ⟨vs, hregs, hcs, hes, hnils, hshape⟩ :=
        ih (processRepo t ecrClient h usedImages ⟨some n⟩ st).state
      have hfor : forRepos t ecrClient h usedImages (⟨some n⟩ :: rest) st
          = forRepos t ecrClient h usedImages rest
              (processRepo t ecrClient h usedImages ⟨some n⟩ st).state := by
        rw [forRepos_cons]
        cases hq : processRepo t ecrClient h usedImages ⟨some n⟩ st with
        | returned s' => rfl
        | panicked s' => simp [hq, Outcome.isPanic] at hret
      refine ⟨v :: vs, ?_, ?_, ?_, ?_, ?_⟩
      · intro x hx
        rcases List.mem_cons.mp hx with rfl | hx
        · exact hreg
        · exact hregs x hx
      · rw [hfor, hcs, hcalls]
        simp [List.flatMap_cons]
      · rw [hfor, hes, herrs]
        cases hv : v.error <;> simp [List.filterMap_cons, hv]
      · intro hne
        rw [hfor]
        exact hnils (hnil hne)
      · rw [hfor]
        have hrepo : v.repository = ⟨some n⟩ := by simp [Visit.repository, hn]
        rcases hshape with ⟨hq, hr⟩ | ⟨hq, post, hr⟩
        · exact Or.inl ⟨hq, by simp [hrepo, hr]⟩
        · exact Or.inr ⟨hq, post, by simp [hrepo, ← hr]⟩

/-- With both listings successful the pass is the loop, started on a log that
holds the two listing calls and on the empty, non-nil `errors`. -/
theorem RemoveOldImages_eq_forRepos {σ Pod Image Ident : Type} (t : CleanupTask)
    (kubeClient : KubernetesClient σ Pod) (ecrClient : ECRClient σ Image)
    (h : Helpers Pod Image Ident) (w w1 w2 : σ) (pods : List Pod) (repos : List Repository)
    (hpods : kubeClient.ListAllPods t.KubeNamespaces w = (.ok pods, w1))
    (hrepos : ecrClient.ListRepositories t.EcrRepositories w1 = (.ok repos, w2)) :
    RemoveOldImages t kubeClient ecrClient h w
      = forRepos t ecrClient h (h.ECRImagesFromPods t.AwsRegion pods) repos
          { world := w2
            calls := [.ListAllPods t.KubeNamespaces (.ok pods),
              .ListRepositories t.EcrRepositories (.ok repos)]
            errors := .mk [] } := by
  simp [RemoveOldImages, hpods, hrepos]

/-- The log and the result of a pass whose two listings succeeded, as a list
of regular visits. -/
theorem RemoveOldImages_visits {σ Pod Image Ident : Type} (t : CleanupTask)
    (kubeClient : KubernetesClient σ Pod) (ecrClient : ECRClient σ Image)
    (h : Helpers Pod Image Ident) (w w1 w2 : σ) (pods : List Pod) (repos : List Repository)
    (hpods : kubeClient.ListAllPods t.KubeNamespaces w = (.ok pods, w1))
    (hrepos : ecrClient.ListRepositories t.EcrRepositories w1 = (.ok repos, w2)) :
    ∃ vs : List (Visit Image),
      (∀ v ∈ vs, v.Regular t h (h.ECRImagesFromPods t.AwsRegion pods)) ∧
      (RemoveOldImages t kubeClient ecrClient h w).state.calls
        = [.ListAllPods t.KubeNamespaces (.ok pods),
            .ListRepositories t.EcrRepositories (.ok repos)] ++ vs.flatMap Visit.calls ∧
      (RemoveOldImages t kubeClient ecrClient h w).state.errors.toList
        = vs.filterMap Visit.error ∧
      (RemoveOldImages t kubeClient ecrClient h w).state.errors ≠ .nil ∧
      (((RemoveOldImages t kubeClient ecrClient h w).isPanic = false ∧
          repos = vs.map Visit.repository) ∨
       ((RemoveOldImages t kubeClient ecrClient h w).isPanic = true ∧
          ∃ post, repos = vs.map Visit.repository ++ ⟨none⟩ :: post)) := by
  rw [RemoveOldImages_eq_forRepos t kubeClient ecrClient h w w1 w2 pods repos hpods hrepos]
  obtain ⟨vs, hreg, hc, he, hn, hs⟩ :=
    forRepos_visits t ecrClient h (h.ECRImagesFromPods t.AwsRegion pods) repos
      { world := w2
        calls := [.ListAllPods t.KubeNamespaces (.ok pods),
          .ListRepositories t.EcrRepositories (.ok repos)]
        errors := .mk [] }
  exact ⟨vs, hreg, hc, by simpa [Slice.toList] using he, hn (by simp), hs⟩

/-- A deletion call found among the calls of regular visits comes right after
the successful inventory call of the same repository and carries the
deletion set computed from that inventory, which is not empty. -/
theorem removal_of_visits {Pod Image Ident : Type} (t : CleanupTask)
    (h : Helpers Pod Image Ident) (usedImages : GoMap (List Ident))
    (vs : List (Visit Image)) (hreg : ∀ v ∈ vs, v.Regular t h usedImages)
    (r : String) (imgs : List Image) (res : Option GoError)
    (hmem : (Call.BatchRemoveImages r imgs res : Call Pod Image) ∈ vs.flatMap Visit.calls) :
    ∃ images,
      [Call.ListImages r (.ok images), (Call.BatchRemoveImages r imgs res : Call Pod Image)]
        <:+: vs.flatMap Visit.calls ∧
      imgs = h.FilterOldUnusedImages t.MaxImages images (usedImages.index r) ∧
      imgs ≠ [] := by
  obtain ⟨v, hv, hc⟩ := List.mem_flatMap.mp hmem
  have hr := hreg v hv
  obtain ⟨l1, l2, rfl⟩ := List.append_of_mem hv
  rcases v with ⟨n, listed, removal⟩
  cases listed with
  | error err =>
    simp only [Visit.Regular] at hr
    subst hr
    simp [Visit.calls] at hc
  | ok images =>
    simp only [Visit.Regular, Visit.deletionSet] at hr
    rcases hr with ⟨-, hr⟩ | ⟨hne, result, hr⟩
    · subst hr
      simp [Visit.calls] at hc
    · subst hr
      simp only [Visit.calls, List.mem_cons, List.mem_singleton, Call.BatchRemoveImages.injEq,
        List.not_mem_nil, or_false, false_or, reduceCtorEq] at hc
      obtain ⟨rfl, rfl, rfl⟩ := hc
      refine ⟨images, ?_, rfl, hne⟩
      refine ⟨l1.flatMap Visit.calls, l2.flatMap Visit.calls, ?_⟩
      simp [List.flatMap_append, List.flatMap_cons, Visit.calls]

/-- A visit makes at most one deletion call, and none for another name. -/
theorem Visit.countP_isRemovalFor {Pod Image : Type} (v : Visit Image) (r : String) :
    (v.calls : List (Call Pod Image)).countP (Call.isRemovalFor r)
      ≤ if v.repositoryName = r then 1 else 0 := by
  rcases v with ⟨n, listed, removal⟩
  cases removal with
  | none => simp [Visit.calls, Call.isRemovalFor, Call.isRemoval, List.countP_cons]
  | some p =>
    by_cases hn : n = r <;>
      simp [Visit.calls, Call.isRemovalFor, Call.isRemoval, Call.isAbout, Call.repositoryName?,
        List.countP_cons, hn]

/-- Deletion calls for `r` among the calls of some visits: at most one per
visit of `r`. -/
theorem countP_isRemovalFor_visits {Pod Image : Type} (vs : List (Visit Image)) (r : String) :
    (vs.flatMap Visit.calls : List (Call Pod Image)).countP (Call.isRemovalFor r)
      ≤ (vs.map Visit.repository).count ⟨some r⟩ := by
  induction vs with
  | nil => simp
  | cons v vs ih =>
    have hv := @Visit.countP_isRemovalFor Pod Image v r
    simp only [List.flatMap_cons, List.countP_append, List.map_cons, List.count_cons]
    by_cases hn : v.repositoryName = r
    · simp only [hn, if_true] at hv
      have : (v.repository == (⟨some r⟩ : Repository)) = true := by
        simp [Visit.repository, hn]
      simp only [this, if_true]
      omega
    · simp only [hn, if_false] at hv
      have : (v.repository == (⟨some r⟩ : Repository)) = false := by
        simp [Visit.repository, hn]
      simp only [this]
      simp
      omega

theorem forRepos_cons_returned {σ Pod Image Ident : Type} (t : CleanupTask)
    (ecrClient : ECRClient σ Image) (h : Helpers Pod Image Ident)
    (usedImages : GoMap (List Ident)) (repo : Repository) (rest : List Repository)
    (st : PassState σ Pod Image)
    (hret : (processRepo t ecrClient h usedImages repo st).isPanic = false) :
    forRepos t ecrClient h usedImages (repo :: rest) st
      = forRepos t ecrClient h usedImages rest
          (processRepo t ecrClient h usedImages repo st).state := by
  rw [forRepos_cons]
  cases hq : processRepo t ecrClient h usedImages repo st with
  | returned s' => rfl
  | panicked s' => simp [hq, Outcome.isPanic] at hret

/-- The calls of a visit concern its own repository only. -/
theorem Visit.filter_isAbout_calls {Pod Image : Type} (v : Visit Image) (r : String)
    (hr : r ≠ v.repositoryName) :
    (v.calls : List (Call Pod Image)).filter (Call.isAbout r) = [] := by
  rcases v with ⟨n, listed, removal⟩
  have hn : ¬ n = r := fun hc => hr hc.symm
  cases removal <;>
    simp [Visit.calls, Call.isAbout, Call.repositoryName?, hn]

/-- Two passes over the same list whose worlds are related by a relation that
hides `r` make the same calls about every other repository. -/
theorem forRepos_isolated {σ Pod Image Ident : Type} (t : CleanupTask)
    (ecr ecr' : ECRClient σ Image) (h : Helpers Pod Image Ident)
    (usedImages : GoMap (List Ident)) (r : String) (R : σ → σ → Prop)
    (hiso : Isolates r ecr ecr' R) (r' : String) (hr' : r' ≠ r)
    (repos : List Repository) (st st' : PassState σ Pod Image)
    (hR : R st.world st'.world)
    (hc : st.calls.filter (Call.isAbout r') = st'.calls.filter (Call.isAbout r')) :
    (forRepos t ecr h usedImages repos st).state.calls.filter (Call.isAbout r')
      = (forRepos t ecr' h usedImages repos st').state.calls.filter (Call.isAbout r') := by
  induction repos generalizing st st' with
  | nil => simpa [forRepos_nil, Outcome.state] using hc
  | cons repo rest ih =>
    rcases repo with ⟨_ | n⟩
    · simpa [forRepos_cons, processRepo, Outcome.state] using hc
    · obtain ⟨v, hret, hn, hl, hreg, hcalls, -, -, hw0, hw1⟩ :=
        processRepo_visit t ecr h usedImages n st
      obtain ⟨v', hret', hn', hl', hreg', hcalls', -, -, hw0', hw1'⟩ :=
        processRepo_visit t ecr' h usedImages n st'
      rw [forRepos_cons_returned _ _ _ _ _ _ _ hret, forRepos_cons_returned _ _ _ _ _ _ _ hret']
      by_cases hnr : n = r
      · subst hnr
        apply ih
        · have hleft : R (processRepo t ecr h usedImages ⟨some n⟩ st).state.world st'.world := by
            cases hv : v.removal with
            | none => rw [hw0 hv]; exact hiso.listLeft _ _ hR
            | some p =>
              rw [(hw1 p.1 p.2 hv).2]
              exact hiso.removeLeft _ _ _ (hiso.listLeft _ _ hR)
          cases hv : v'.removal with
          | none => rw [hw0' hv]; exact hiso.listRight _ _ hleft
          | some p =>
            rw [(hw1' p.1 p.2 hv).2]
            exact hiso.removeRight _ _ _ (hiso.listRight _ _ hleft)
        · rw [hcalls, hcalls', List.filter_append, List.filter_append, hc,
            Visit.filter_isAbout_calls v r' (by rw [hn]; exact hr'),
            Visit.filter_isAbout_calls v' r' (by rw [hn']; exact hr')]
      · have hlist := hiso.listImages n hnr _ _ hR
        have hveq : v = v' ∧
            R (processRepo t ecr h usedImages ⟨some n⟩ st).state.world
              (processRepo t ecr' h usedImages ⟨some n⟩ st').state.world := by
          rcases v with ⟨m, listed, removal⟩
          rcases v' with ⟨m', listed', removal'⟩
          simp only at hn hn' hl hl' hw0 hw1 hw0' hw1'
          subst hn hn'
          have hll : listed = listed' := by rw [hl, hl', hlist.1]
          subst hll
          cases listed with
          | error err =>
            simp only [Visit.Regular] at hreg hreg'
            subst hreg hreg'
            refine ⟨rfl, ?_⟩
            rw [hw0 rfl, hw0' rfl]
            exact hlist.2
          | ok images =>
            simp only [Visit.Regular] at hreg hreg'
            rcases hreg with ⟨hnil, hrm⟩ | ⟨hne, res, hrm⟩
            · rcases hreg' with ⟨-, hrm'⟩ | ⟨hne', -⟩
              · subst hrm hrm'
                refine ⟨rfl, ?_⟩
                rw [hw0 rfl, hw0' rfl]
                exact hlist.2
              · exact absurd hnil hne'
            · rcases hreg' with ⟨hnil', -⟩ | ⟨-, res', hrm'⟩
              · exact absurd hnil' hne
              · subst hrm hrm'
                have hb := hiso.batchRemoveImages m' hnr
                  (Visit.deletionSet t h usedImages m' images) _ _ hlist.2
                have h1 := hw1 _ _ rfl
                have h1' := hw1' _ _ rfl
                refine ⟨?_, ?_⟩
                · rw [h1.1, h1'.1, hb.1]
                · rw [h1.2, h1'.2]
                  exact hb.2
        apply ih
        · exact hveq.2
        · rw [hcalls, hcalls', List.filter_append, List.filter_append, hc, hveq.1]

theorem Slice.eq_mk_of_toList {α : Type} (s : Slice α) (l : List α) (hs : s ≠ .nil)
    (hl : s.toList = l) : s = .mk l := by
  cases s with
  | nil => exact absurd rfl hs
  | mk xs => simpa [Slice.toList] using hl

/-- With both listings successful the pass is the loop started in
`loopEntry`. -/
theorem RemoveOldImages_eq_loop {σ Pod Image Ident : Type} (t : CleanupTask)
    (kubeClient : KubernetesClient σ Pod) (ecrClient : ECRClient σ Image)
    (h : Helpers Pod Image Ident) (w w1 w2 : σ) (pods : List Pod) (repos : List Repository)
    (hpods : kubeClient.ListAllPods t.KubeNamespaces w = (.ok pods, w1))
    (hrepos : ecrClient.ListRepositories t.EcrRepositories w1 = (.ok repos, w2)) :
    RemoveOldImages t kubeClient ecrClient h w
      = forRepos t ecrClient h (h.ECRImagesFromPods t.AwsRegion pods) repos
          (loopEntry t pods repos w2) :=
  RemoveOldImages_eq_forRepos t kubeClient ecrClient h w w1 w2 pods repos hpods hrepos

/-- Regular visits contribute as many errors as they have failed calls. -/
theorem errors_length_of_visits {Pod Image Ident : Type} (t : CleanupTask)
    (h : Helpers Pod Image Ident) (usedImages : GoMap (List Ident))
    (vs : List (Visit Image)) (hreg : ∀ v ∈ vs, v.Regular t h usedImages) :
    (vs.filterMap Visit.error).length
      = (vs.flatMap Visit.calls : List (Call Pod Image)).countP Call.failed := by
  induction vs with
  | nil => rfl
  | cons v vs ih =>
    have ihv := ih (fun x hx => hreg x (List.mem_cons_of_mem _ hx))
    have hv := hreg v (List.mem_cons_self _ _)
    rw [List.flatMap_cons, List.countP_append, ← ihv]
    rcases v with ⟨n, listed, removal⟩
    cases listed with
    | error err =>
      simp only [Visit.Regular] at hv
      subst hv
      simp [Visit.error, Visit.calls, Call.failed, List.filterMap_cons, Nat.add_comm]
    | ok images =>
      rcases removal with _ | ⟨imgs, _ | err⟩ <;>
        simp [Visit.error, Visit.calls, Call.failed, List.filterMap_cons, Nat.add_comm]

/-- The rest of a pass, from any state: regular visits of the entries up to
the first one without a name. -/
theorem forRepos_rest {σ Pod Image Ident : Type} (t : CleanupTask)
    (ecrClient : ECRClient σ Image) (h : Helpers Pod Image Ident)
    (usedImages : GoMap (List Ident)) (post : List Repository)
    (st : PassState σ Pod Image) :
    ∃ vs : List (Visit Image),
      (∀ v ∈ vs, v.Regular t h usedImages) ∧
      vs.map Visit.repository <+: post ∧
      ((∀ repo ∈ post, repo.RepositoryName ≠ none) →
        (forRepos t ecrClient h usedImages post st).isPanic = false ∧
        vs.map Visit.repository = post) ∧
      (forRepos t ecrClient h usedImages post st).state.calls
        = st.calls ++ vs.flatMap Visit.calls ∧
      (forRepos t ecrClient h usedImages post st).state.errors.toList
        = st.errors.toList ++ vs.filterMap Visit.error ∧
      (st.errors ≠ .nil → (forRepos t ecrClient h usedImages post st).state.errors ≠ .nil) := by
  obtain ⟨vs, hreg, hc, he, hn, hshape⟩ := forRepos_visits t ecrClient h usedImages post st
  refine ⟨vs, hreg, ?_, ?_, hc, he, hn⟩
  · rcases hshape with ⟨-, hr⟩ | ⟨-, rest, hr⟩
    · rw [hr]
    · rw [hr]; exact List.prefix_append _ _
  · intro hnamed
    rcases hshape with ⟨hq, hr⟩ | ⟨-, rest, hr⟩
    · exact ⟨hq, hr.symm⟩
    · exact absurd rfl (hnamed ⟨none⟩ (by rw [hr]; simp))

/-! ## Aborting the pass -/

/-- C1: when `ListAllPods` returns an error `e`, `RemoveOldImages` returns
(it does not panic) a list of exactly one error whose message is
"Cannot list pods: " followed by `e`, and the only call of the pass is that
`ListAllPods` call: no `ListRepositories`, `ListImages` or
`BatchRemoveImages` call is made. -/
theorem RemoveOldImages_pods_error {σ Pod Image Ident : Type} (t : CleanupTask)
    (kubeClient : KubernetesClient σ Pod) (ecrClient : ECRClient σ Image)
    (h : Helpers Pod Image Ident) (w w1 : σ) (e : GoError)
    (hpods : kubeClient.ListAllPods t.KubeNamespaces w = (.error e, w1)) :
    (RemoveOldImages t kubeClient ecrClient h w).isPanic = false ∧
    (RemoveOldImages t kubeClient ecrClient h w).state.errors
      = .mk [⟨"Cannot list pods: " ++ e.msg⟩] ∧
    (RemoveOldImages t kubeClient ecrClient h w).state.calls
      = [.ListAllPods t.KubeNamespaces (.error e)] := by
  simp [RemoveOldImages, hpods, Outcome.isPanic, Outcome.state, Slice.append, Slice.toList]

/-- Witness for C1 on the example cluster whose pod listing times out. -/
theorem RemoveOldImages_pods_error_witness :
    exKubeDown.ListAllPods exTask.KubeNamespaces 0 = (.error ⟨"timeout"⟩, 1) ∧
    (RemoveOldImages exTask exKubeDown exEcr exHelpers 0).state.errors
      = .mk [⟨"Cannot list pods: timeout"⟩] :=
  ⟨rfl, (RemoveOldImages_pods_error exTask exKubeDown exEcr exHelpers 0 1 ⟨"timeout"⟩ rfl).2.1⟩

/-- C2: when `ListAllPods` succeeds and `ListRepositories` returns an error
`e`, `RemoveOldImages` returns (it does not panic) exactly one error, whose
message is "Cannot list ECR repositories: " followed by `e`, and the log of
the pass holds the `ListAllPods` call and the `ListRepositories` call only:
zero `ListImages` calls and zero `BatchRemoveImages` calls. -/
theorem RemoveOldImages_repositories_error {σ Pod Image Ident : Type} (t : CleanupTask)
    (kubeClient : KubernetesClient σ Pod) (ecrClient : ECRClient σ Image)
    (h : Helpers Pod Image Ident) (w w1 w2 : σ) (pods : List Pod) (e : GoError)
    (hpods : kubeClient.ListAllPods t.KubeNamespaces w = (.ok pods, w1))
    (hrepos : ecrClient.ListRepositories t.EcrRepositories w1 = (.error e, w2)) :
    (RemoveOldImages t kubeClient ecrClient h w).isPanic = false ∧
    (RemoveOldImages t kubeClient ecrClient h w).state.errors
      = .mk [⟨"Cannot list ECR repositories: " ++ e.msg⟩] ∧
    (RemoveOldImages t kubeClient ecrClient h w).state.calls
      = [.ListAllPods t.KubeNamespaces (.ok pods),
         .ListRepositories t.EcrRepositories (.error e)] ∧
    (RemoveOldImages t kubeClient ecrClient h w).state.calls.countP Call.isListImages = 0 ∧
    (RemoveOldImages t kubeClient ecrClient h w).state.calls.countP Call.isRemoval = 0 := by
  simp [RemoveOldImages, hpods, hrepos, Outcome.isPanic, Outcome.state, Slice.append,
    Slice.toList, Call.isListImages, Call.isRemoval]

/-- Witness for C2 on the example registry whose repository listing fails. -/
theorem RemoveOldImages_repositories_error_witness :
    exKube.ListAllPods exTask.KubeNamespaces 0 = (.ok [5, 7], 1) ∧
    exEcrDown.ListRepositories exTask.EcrRepositories 1 = (.error ⟨"no credentials"⟩, 2) ∧
    (RemoveOldImages exTask exKube exEcrDown exHelpers 0).state.errors
      = .mk [⟨"Cannot list ECR repositories: no credentials"⟩] ∧
    (RemoveOldImages exTask exKube exEcrDown exHelpers 0).state.calls.countP Call.isRemoval
      = 0 :=
  ⟨rfl, rfl,
    (RemoveOldImages_repositories_error exTask exKube exEcrDown exHelpers 0 1 2 [5, 7]
      ⟨"no credentials"⟩ rfl rfl).2.1,
    (RemoveOldImages_repositories_error exTask exKube exEcrDown exHelpers 0 1 2 [5, 7]
      ⟨"no credentials"⟩ rfl rfl).2.2.2.2⟩

/-- The log of a pass whose repository listing failed. -/
theorem RemoveOldImages_repositories_calls {σ Pod Image Ident : Type} (t : CleanupTask)
    (kubeClient : KubernetesClient σ Pod) (ecrClient : ECRClient σ Image)
    (h : Helpers Pod Image Ident) (w w1 w2 : σ) (pods : List Pod) (e : GoError)
    (hpods : kubeClient.ListAllPods t.KubeNamespaces w = (.ok pods, w1))
    (hrepos : ecrClient.ListRepositories t.EcrRepositories w1 = (.error e, w2)) :
    (RemoveOldImages t kubeClient ecrClient h w).state.calls
      = [.ListAllPods t.KubeNamespaces (.ok pods),
         .ListRepositories t.EcrRepositories (.error e)] := by
  simp [RemoveOldImages, hpods, hrepos, Outcome.state]

/-- A successful inventory call found among the calls of regular visits either
has an empty deletion set or is followed at once by the deletion call for the
same repository carrying that deletion set. -/
theorem listing_of_visits {Pod Image Ident : Type} (t : CleanupTask)
    (h : Helpers Pod Image Ident) (usedImages : GoMap (List Ident))
    (vs : List (Visit Image)) (hreg : ∀ v ∈ vs, v.Regular t h usedImages)
    (r : String) (images : List Image)
    (hmem : (Call.ListImages r (.ok images) : Call Pod Image) ∈ vs.flatMap Visit.calls) :
    h.FilterOldUnusedImages t.MaxImages images (usedImages.index r) = [] ∨
    ∃ res,
      [Call.ListImages r (.ok images),
        (Call.BatchRemoveImages r
          (h.FilterOldUnusedImages t.MaxImages images (usedImages.index r)) res :
            Call Pod Image)]
        <:+: vs.flatMap Visit.calls := by
  obtain ⟨v, hv, hc⟩ := List.mem_flatMap.mp hmem
  have hr := hreg v hv
  obtain ⟨l1, l2, rfl⟩ := List.append_of_mem hv
  rcases v with ⟨n, listed, removal⟩
  have hcall : r = n ∧ Except.ok images = listed := by
    cases removal with
    | none => simpa [Visit.calls] using hc
    | some p => simpa [Visit.calls] using hc
  obtain ⟨rfl, rfl⟩ := hcall
  simp only [Visit.Regular, Visit.deletionSet] at hr
  rcases hr with ⟨hnil, -⟩ | ⟨-, result, hr⟩
  · exact Or.inl hnil
  · subst hr
    refine Or.inr ⟨result, l1.flatMap Visit.calls, l2.flatMap Visit.calls, ?_⟩
    simp [List.flatMap_append, List.flatMap_cons, Visit.calls]

/-- The log of a pass whose pod listing succeeded: calls that concern no
repository, then the calls of regular visits. -/
theorem RemoveOldImages_log {σ Pod Image Ident : Type} (t : CleanupTask)
    (kubeClient : KubernetesClient σ Pod) (ecrClient : ECRClient σ Image)
    (h : Helpers Pod Image Ident) (w w1 : σ) (pods : List Pod)
    (hpods : kubeClient.ListAllPods t.KubeNamespaces w = (.ok pods, w1)) :
    ∃ (hdr : List (Call Pod Image)) (vs : List (Visit Image)),
      (RemoveOldImages t kubeClient ecrClient h w).state.calls = hdr ++ vs.flatMap Visit.calls ∧
      (∀ c ∈ hdr, c.repositoryName? = none) ∧
      (∀ v ∈ vs, v.Regular t h (h.ECRImagesFromPods t.AwsRegion pods)) := by
  rcases hrepos : ecrClient.ListRepositories t.EcrRepositories w1 with ⟨res, w2⟩
  cases res with
  | error e =>
    refine ⟨[.ListAllPods t.KubeNamespaces (.ok pods),
      .ListRepositories t.EcrRepositories (.error e)], [], ?_, ?_, by simp⟩
    · rw [(RemoveOldImages_repositories_calls t kubeClient ecrClient h w w1 w2 pods e
        hpods hrepos)]
      simp
    · simp [Call.repositoryName?]
  | ok repos =>
    obtain ⟨vs, hreg, hc, -⟩ :=
      RemoveOldImages_visits t kubeClient ecrClient h w w1 w2 pods repos hpods hrepos
    exact ⟨_, vs, hc, by simp [Call.repositoryName?], hreg⟩

/-- C3: in a pass whose pod listing returned `pods`, with
`usedImages = ECRImagesFromPods(AwsRegion, pods)`: every `BatchRemoveImages`
call in the log comes right after the successful `ListImages` call for the
same repository name `r` and carries exactly
`FilterOldUnusedImages(MaxImages, images, usedImages[r])` for the inventory
`images` that call returned; every successful `ListImages` call whose
deletion set is not empty is followed by that deletion call; a name absent
from `usedImages` gives the empty used set; and so, for any reading `inUse`
of "image `x` is in the used set `u`", when the filter never returns an image
in its used-set argument, no deletion request holds an image in the used set
of the repository it is addressed to. -/
theorem RemoveOldImages_deletes_filter_output {σ Pod Image Ident : Type} (t : CleanupTask)
    (kubeClient : KubernetesClient σ Pod) (ecrClient : ECRClient σ Image)
    (h : Helpers Pod Image Ident) (w w1 : σ) (pods : List Pod)
    (hpods : kubeClient.ListAllPods t.KubeNamespaces w = (.ok pods, w1)) :
    (∀ r imgs res,
      Call.BatchRemoveImages r imgs res
          ∈ (RemoveOldImages t kubeClient ecrClient h w).state.calls →
        ∃ images,
          [Call.ListImages r (.ok images), Call.BatchRemoveImages r imgs res]
            <:+: (RemoveOldImages t kubeClient ecrClient h w).state.calls ∧
          imgs = h.FilterOldUnusedImages t.MaxImages images
            ((h.ECRImagesFromPods t.AwsRegion pods).index r)) ∧
    (∀ r images,
      Call.ListImages r (.ok images)
          ∈ (RemoveOldImages t kubeClient ecrClient h w).state.calls →
        h.FilterOldUnusedImages t.MaxImages images
            ((h.ECRImagesFromPods t.AwsRegion pods).index r) = [] ∨
        ∃ res,
          [Call.ListImages r (.ok images),
            Call.BatchRemoveImages r
              (h.FilterOldUnusedImages t.MaxImages images
                ((h.ECRImagesFromPods t.AwsRegion pods).index r)) res]
            <:+: (RemoveOldImages t kubeClient ecrClient h w).state.calls) ∧
    (∀ r, h.ECRImagesFromPods t.AwsRegion pods r = none →
      (h.ECRImagesFromPods t.AwsRegion pods).index r = []) ∧
    (∀ inUse : Image → List Ident → Prop,
      (∀ keepMax images used x,
        x ∈ h.FilterOldUnusedImages keepMax images used → ¬ inUse x used) →
      ∀ r imgs res,
        Call.BatchRemoveImages r imgs res
            ∈ (RemoveOldImages t kubeClient ecrClient h w).state.calls →
          ∀ x ∈ imgs, ¬ inUse x ((h.ECRImagesFromPods t.AwsRegion pods).index r)) := by
  obtain ⟨hdr, vs, hc, hhdr, hreg⟩ := RemoveOldImages_log t kubeClient ecrClient h w w1 pods hpods
  have hrem : ∀ r imgs res,
      Call.BatchRemoveImages r imgs res
          ∈ (RemoveOldImages t kubeClient ecrClient h w).state.calls →
        ∃ images,
          [Call.ListImages r (.ok images), Call.BatchRemoveImages r imgs res]
            <:+: (RemoveOldImages t kubeClient ecrClient h w).state.calls ∧
          imgs = h.FilterOldUnusedImages t.MaxImages images
            ((h.ECRImagesFromPods t.AwsRegion pods).index r) := by
    intro r imgs res hmem
    rw [hc] at hmem ⊢
    rcases List.mem_append.mp hmem with hm | hm
    · simpa [Call.repositoryName?] using hhdr _ hm
    · obtain ⟨images, hinf, heq, -⟩ := removal_of_visits t h _ vs hreg r imgs res hm
      exact ⟨images, hinf.trans (List.suffix_append _ _).isInfix, heq⟩
  refine ⟨hrem, ?_, ?_, ?_⟩
  · intro r images hmem
    rw [hc] at hmem ⊢
    rcases List.mem_append.mp hmem with hm | hm
    · simpa [Call.repositoryName?] using hhdr _ hm
    · rcases listing_of_visits t h _ vs hreg r images hm with hnil | ⟨res, hinf⟩
      · exact Or.inl hnil
      · exact Or.inr ⟨res, hinf.trans (List.suffix_append _ _).isInfix⟩
  · intro r hr
    simp [GoMap.index, hr]
  · intro inUse hfilter r imgs res hmem x hx
    obtain ⟨images, -, heq⟩ := hrem r imgs res hmem
    subst heq
    exact hfilter _ _ _ x hx

/-- Witness for C3 on the example registry: image 1 of `app` is deleted and is
not in use. -/
theorem RemoveOldImages_deletes_filter_output_witness :
    exKube.ListAllPods exTask.KubeNamespaces 0 = (.ok [5, 7], 1) ∧
    ¬ (1 ∈ (exHelpers.ECRImagesFromPods exTask.AwsRegion [5, 7]).index "app") :=
  ⟨rfl,
    (RemoveOldImages_deletes_filter_output exTask exKube exEcr exHelpers 0 1 [5, 7] rfl).2.2.2
      (fun x u => x ∈ u)
      (by
        intro keepMax images used x hx hu
        have hmem := List.mem_of_mem_drop hx
        simp [exHelpers, List.mem_filter] at hmem
        exact hmem.2 hu)
      "app" [1] none
      (List.Mem.tail _ (List.Mem.tail _ (List.Mem.tail _ (List.Mem.head _))))
      1 (List.Mem.head _)⟩

/-! ## Deletion calls -/

/-- C6: in a pass whose two listings succeeded, the log after the two listing
calls is the calls of the visits `vs` of the repositories processed (all of
the list when the pass returns), and `errors` holds the errors of those
visits.  For every visit whose inventory listing succeeded: when the
deletion set is empty the visit is the `ListImages` call alone and
contributes no error; when it is not empty the visit is the `ListImages`
call followed by exactly one `BatchRemoveImages` call for the same
repository carrying the whole deletion set.  Hence no `BatchRemoveImages`
call in the log carries an empty list, and the number of deletion calls
addressed to a name is at most the number of entries of the list with that
name: at most one per repository, and at most one per name when no entry
is repeated. -/
theorem RemoveOldImages_removal_calls {σ Pod Image Ident : Type} (t : CleanupTask)
    (kubeClient : KubernetesClient σ Pod) (ecrClient : ECRClient σ Image)
    (h : Helpers Pod Image Ident) (w w1 w2 : σ) (pods : List Pod) (repos : List Repository)
    (hpods : kubeClient.ListAllPods t.KubeNamespaces w = (.ok pods, w1))
    (hrepos : ecrClient.ListRepositories t.EcrRepositories w1 = (.ok repos, w2)) :
    ∃ vs : List (Visit Image),
      vs.map Visit.repository <+: repos ∧
      ((RemoveOldImages t kubeClient ecrClient h w).isPanic = false →
        vs.map Visit.repository = repos) ∧
      (RemoveOldImages t kubeClient ecrClient h w).state.calls
        = [.ListAllPods t.KubeNamespaces (.ok pods),
            .ListRepositories t.EcrRepositories (.ok repos)] ++ vs.flatMap Visit.calls ∧
      (RemoveOldImages t kubeClient ecrClient h w).state.errors.toList
        = vs.filterMap Visit.error ∧
      (∀ v ∈ vs, ∀ images, v.listed = .ok images →
        (Visit.deletionSet t h (h.ECRImagesFromPods t.AwsRegion pods) v.repositoryName images
            = [] →
          (v.calls : List (Call Pod Image)) = [.ListImages v.repositoryName (.ok images)] ∧
          v.error = none) ∧
        (Visit.deletionSet t h (h.ECRImagesFromPods t.AwsRegion pods) v.repositoryName images
            ≠ [] →
          ∃ res, (v.calls : List (Call Pod Image))
            = [.ListImages v.repositoryName (.ok images),
               .BatchRemoveImages v.repositoryName
                 (Visit.deletionSet t h (h.ECRImagesFromPods t.AwsRegion pods)
                   v.repositoryName images) res])) ∧
      (∀ r imgs res,
        Call.BatchRemoveImages r imgs res
            ∈ (RemoveOldImages t kubeClient ecrClient h w).state.calls → imgs ≠ []) ∧
      (∀ r, (RemoveOldImages t kubeClient ecrClient h w).state.calls.countP
          (Call.isRemovalFor r) ≤ repos.count ⟨some r⟩) ∧
      (repos.Nodup →
        ∀ r, (RemoveOldImages t kubeClient ecrClient h w).state.calls.countP
          (Call.isRemovalFor r) ≤ 1) := by
  obtain ⟨vs, hreg, hc, he, -, hshape⟩ :=
    RemoveOldImages_visits t kubeClient ecrClient h w w1 w2 pods repos hpods hrepos
  have hpre : vs.map Visit.repository <+: repos := by
    rcases hshape with ⟨-, hr⟩ | ⟨-, post, hr⟩
    · rw [hr]
    · rw [hr]; exact List.prefix_append _ _
  have hcount : ∀ r, (RemoveOldImages t kubeClient ecrClient h w).state.calls.countP
      (Call.isRemovalFor r) ≤ repos.count ⟨some r⟩ := by
    intro r
    rw [hc, List.countP_append]
    have h0 : List.countP (Call.isRemovalFor r)
        [(Call.ListAllPods t.KubeNamespaces (.ok pods) : Call Pod Image),
          .ListRepositories t.EcrRepositories (.ok repos)] = 0 := by
      simp [Call.isRemovalFor, Call.isRemoval]
    rw [h0, Nat.zero_add]
    exact (countP_isRemovalFor_visits vs r).trans (hpre.sublist.count_le _)
  refine ⟨vs, hpre, ?_, hc, he, ?_, ?_, hcount,
    fun hnd r => (hcount r).trans (List.nodup_iff_count_le_one.mp hnd _)⟩
  · intro hret
    rcases hshape with ⟨-, hr⟩ | ⟨hp, -⟩
    · exact hr.symm
    · rw [hret] at hp; cases hp
  · intro v hv images hl
    have hr := hreg v hv
    rcases v with ⟨n, listed, removal⟩
    simp only at hl
    subst hl
    simp only [Visit.Regular] at hr
    constructor
    · intro hnil
      rcases hr with ⟨-, hr⟩ | ⟨hne, -⟩
      · subst hr
        simp [Visit.calls, Visit.error]
      · exact absurd hnil hne
    · intro hne
      rcases hr with ⟨hnil, -⟩ | ⟨-, result, hr⟩
      · exact absurd hnil hne
      · subst hr
        exact ⟨result, by simp [Visit.calls]⟩
  · intro r imgs res hmem
    rw [hc] at hmem
    rcases List.mem_append.mp hmem with hm | hm
    · simp at hm
    · obtain ⟨images, -, -, hne⟩ := removal_of_visits t h _ vs hreg r imgs res hm
      exact hne

/-- Witness for C6 on the example registry: one list entry is named `app`, so
at most one deletion call is addressed to `app`. -/
theorem RemoveOldImages_removal_calls_witness :
    exKube.ListAllPods exTask.KubeNamespaces 0 = (.ok [5, 7], 1) ∧
    exEcr.ListRepositories exTask.EcrRepositories 1
      = (.ok [⟨some "app"⟩, ⟨some "web"⟩, ⟨some "db"⟩], 2) ∧
    (RemoveOldImages exTask exKube exEcr exHelpers 0).state.calls.countP
        (Call.isRemovalFor "app")
      ≤ List.count (⟨some "app"⟩ : Repository) [⟨some "app"⟩, ⟨some "web"⟩, ⟨some "db"⟩] :=
  ⟨rfl, rfl,
    (RemoveOldImages_removal_calls exTask exKube exEcr exHelpers 0 1 2 [5, 7]
      [⟨some "app"⟩, ⟨some "web"⟩, ⟨some "db"⟩] rfl rfl).elim
      (fun _ hvs => hvs.2.2.2.2.2.2.1 "app")⟩

/-- A regular visit contributes no error exactly when none of its calls
failed. -/
theorem Visit.error_eq_none_iff {Pod Image Ident : Type} (t : CleanupTask)
    (h : Helpers Pod Image Ident) (usedImages : GoMap (List Ident)) (v : Visit Image)
    (hreg : v.Regular t h usedImages) :
    v.error = none ↔ ∀ c ∈ (v.calls : List (Call Pod Image)), c.failed = false := by
  rcases v with ⟨n, listed, removal⟩
  cases listed with
  | error err =>
    simp only [Visit.Regular] at hreg
    subst hreg
    simp [Visit.error, Visit.calls, Call.failed]
  | ok images =>
    rcases removal with _ | ⟨imgs, _ | err⟩ <;>
      simp [Visit.error, Visit.calls, Call.failed]

/-! ## The list of errors returned -/

/-- C7: when `ListAllPods` and `ListRepositories` both succeed and every entry
of the list has a name, the pass returns, and there are visits `vs`, one per
entry of the list and in the order of the list, such that the list returned
is the errors of the visits in that order and nothing else.  A visit
contributes at most one error: the error naming its repository when its
`ListImages` call failed or when its `BatchRemoveImages` call failed, and
none when no call of the visit failed.  So the list returned is empty
exactly when no call of the pass failed; in particular it is empty for an
empty list of repositories, whatever the pods are. -/
theorem RemoveOldImages_errors {σ Pod Image Ident : Type} (t : CleanupTask)
    (kubeClient : KubernetesClient σ Pod) (ecrClient : ECRClient σ Image)
    (h : Helpers Pod Image Ident) (w w1 w2 : σ) (pods : List Pod) (repos : List Repository)
    (hpods : kubeClient.ListAllPods t.KubeNamespaces w = (.ok pods, w1))
    (hrepos : ecrClient.ListRepositories t.EcrRepositories w1 = (.ok repos, w2))
    (hnamed : ∀ repo ∈ repos, repo.RepositoryName ≠ none) :
    (RemoveOldImages t kubeClient ecrClient h w).isPanic = false ∧
    (∃ vs : List (Visit Image),
      repos = vs.map Visit.repository ∧
      (RemoveOldImages t kubeClient ecrClient h w).state.calls
        = [.ListAllPods t.KubeNamespaces (.ok pods),
            .ListRepositories t.EcrRepositories (.ok repos)] ++ vs.flatMap Visit.calls ∧
      (RemoveOldImages t kubeClient ecrClient h w).state.errors.toList
        = vs.filterMap Visit.error ∧
      (∀ v ∈ vs,
        (∀ e, v.listed = .error e →
          v.error = some
            ⟨"Cannot list images from repo '" ++ v.repositoryName ++ "': " ++ e.msg⟩) ∧
        (∀ images imgs e, v.listed = .ok images → v.removal = some (imgs, some e) →
          v.error = some
            ⟨"Could not batch remove images from repo '" ++ v.repositoryName ++ "': "
              ++ e.msg⟩) ∧
        (v.error = none ↔ ∀ c ∈ (v.calls : List (Call Pod Image)), c.failed = false))) ∧
    ((RemoveOldImages t kubeClient ecrClient h w).state.errors.toList = [] ↔
      ∀ c ∈ (RemoveOldImages t kubeClient ecrClient h w).state.calls, c.failed = false) ∧
    (repos = [] → (RemoveOldImages t kubeClient ecrClient h w).state.errors.toList = []) := by
  obtain ⟨vs, hreg, hc, he, -, hshape⟩ :=
    RemoveOldImages_visits t kubeClient ecrClient h w w1 w2 pods repos hpods hrepos
  have hret : (RemoveOldImages t kubeClient ecrClient h w).isPanic = false ∧
      repos = vs.map Visit.repository := by
    rcases hshape with hs | ⟨-, post, hr⟩
    · exact hs
    · exact absurd rfl (hnamed ⟨none⟩ (by rw [hr]; simp))
  have hvis : ∀ v ∈ vs,
      (v.error = none ↔ ∀ c ∈ (v.calls : List (Call Pod Image)), c.failed = false) :=
    fun v hv => Visit.error_eq_none_iff t h _ v (hreg v hv)
  have hempty : (RemoveOldImages t kubeClient ecrClient h w).state.errors.toList = [] ↔
      ∀ c ∈ (RemoveOldImages t kubeClient ecrClient h w).state.calls, c.failed = false := by
    rw [he, hc, List.filterMap_eq_nil_iff]
    constructor
    · intro hall c hcm
      rcases List.mem_append.mp hcm with hm | hm
      · simp only [List.mem_cons, List.mem_singleton, List.not_mem_nil, or_false] at hm
        rcases hm with rfl | rfl <;> rfl
      · obtain ⟨v, hv, hcv⟩ := List.mem_flatMap.mp hm
        exact (hvis v hv).mp (hall v hv) c hcv
    · intro hall v hv
      refine (hvis v hv).mpr (fun c hcv => hall c ?_)
      exact List.mem_append_right _ (List.mem_flatMap.mpr ⟨v, hv, hcv⟩)
  refine ⟨hret.1, ⟨vs, hret.2, hc, he, ?_⟩, hempty, ?_⟩
  · intro v hv
    refine ⟨?_, ?_, hvis v hv⟩
    · intro e hl
      simp [Visit.error, hl]
    · intro images imgs e hl hrm
      simp [Visit.error, hl, hrm]
  · intro hnil
    have hvs : vs = [] := by
      have := hret.2
      rw [hnil] at this
      exact List.map_eq_nil_iff.mp this.symm
    rw [he, hvs]
    rfl

/-- Witness for C7 on the example registry, whose three entries are named. -/
theorem RemoveOldImages_errors_witness :
    exKube.ListAllPods exTask.KubeNamespaces 0 = (.ok [5, 7], 1) ∧
    exEcr.ListRepositories exTask.EcrRepositories 1
      = (.ok [⟨some "app"⟩, ⟨some "web"⟩, ⟨some "db"⟩], 2) ∧
    (RemoveOldImages exTask exKube exEcr exHelpers 0).isPanic = false :=
  ⟨rfl, rfl,
    (RemoveOldImages_errors exTask exKube exEcr exHelpers 0 1 2 [5, 7]
      [⟨some "app"⟩, ⟨some "web"⟩, ⟨some "db"⟩] rfl rfl (by decide)).1⟩

/-- A pass whose pod listing failed returns, with one error, non-nil. -/
theorem RemoveOldImages_pods_abort {σ Pod Image Ident : Type} (t : CleanupTask)
    (kubeClient : KubernetesClient σ Pod) (ecrClient : ECRClient σ Image)
    (h : Helpers Pod Image Ident) (w w1 : σ) (e : GoError)
    (hpods : kubeClient.ListAllPods t.KubeNamespaces w = (.error e, w1)) :
    (RemoveOldImages t kubeClient ecrClient h w).isPanic = false ∧
    (RemoveOldImages t kubeClient ecrClient h w).state.errors
      = .mk [⟨"Cannot list pods: " ++ e.msg⟩] := by
  simp [RemoveOldImages, hpods, Outcome.isPanic, Outcome.state, Slice.append, Slice.toList]

/-- A pass whose repository listing failed returns, with one error, non-nil. -/
theorem RemoveOldImages_repositories_abort {σ Pod Image Ident : Type} (t : CleanupTask)
    (kubeClient : KubernetesClient σ Pod) (ecrClient : ECRClient σ Image)
    (h : Helpers Pod Image Ident) (w w1 w2 : σ) (pods : List Pod) (e : GoError)
    (hpods : kubeClient.ListAllPods t.KubeNamespaces w = (.ok pods, w1))
    (hrepos : ecrClient.ListRepositories t.EcrRepositories w1 = (.error e, w2)) :
    (RemoveOldImages t kubeClient ecrClient h w).isPanic = false ∧
    (RemoveOldImages t kubeClient ecrClient h w).state.errors
      = .mk [⟨"Cannot list ECR repositories: " ++ e.msg⟩] := by
  simp [RemoveOldImages, hpods, hrepos, Outcome.isPanic, Outcome.state, Slice.append,
    Slice.toList]

/-- The inventory calls among the calls of some visits: one per visit, in
order, each for the repository of its visit. -/
theorem listImages_of_visits {Pod Image : Type} (vs : List (Visit Image)) :
    ((vs.flatMap Visit.calls : List (Call Pod Image)).filter Call.isListImages).map
        Call.repositoryName?
      = (vs.map Visit.repository).map (fun repo => repo.RepositoryName) := by
  induction vs with
  | nil => rfl
  | cons v vs ih =>
    rcases v with ⟨n, listed, removal⟩
    cases removal with
    | none =>
      simpa [List.flatMap_cons, Visit.calls, Call.isListImages, Call.repositoryName?,
        Visit.repository] using ih
    | some p =>
      simpa [List.flatMap_cons, Visit.calls, Call.isListImages, Call.repositoryName?,
        Visit.repository] using ih

/-! ## Totality -/

/-- C10: for every task, every two clients and every starting world:
(1) when every repository returned by `ListRepositories` carries a non-nil
`RepositoryName`, `RemoveOldImages` returns (no panic on the dereference of
the name) and the list it returns is not the nil slice; (2) under the same
precondition the `ListImages` calls of the log are exactly one per returned
repository, in the order of the list; (3) the pass panics exactly when both
listings succeed and some returned repository has a nil `RepositoryName`, so
that dereference is the only way the pass ends other than by returning its
list of errors. -/
theorem RemoveOldImages_total {σ Pod Image Ident : Type} (t : CleanupTask)
    (kubeClient : KubernetesClient σ Pod) (ecrClient : ECRClient σ Image)
    (h : Helpers Pod Image Ident) (w : σ) :
    ((∀ pods w1 repos w2,
        kubeClient.ListAllPods t.KubeNamespaces w = (.ok pods, w1) →
        ecrClient.ListRepositories t.EcrRepositories w1 = (.ok repos, w2) →
        ∀ repo ∈ repos, repo.RepositoryName ≠ none) →
      (RemoveOldImages t kubeClient ecrClient h w).isPanic = false ∧
      (RemoveOldImages t kubeClient ecrClient h w).state.errors ≠ .nil) ∧
    (∀ pods w1 repos w2,
      kubeClient.ListAllPods t.KubeNamespaces w = (.ok pods, w1) →
      ecrClient.ListRepositories t.EcrRepositories w1 = (.ok repos, w2) →
      (∀ repo ∈ repos, repo.RepositoryName ≠ none) →
      ((RemoveOldImages t kubeClient ecrClient h w).state.calls.filter
          Call.isListImages).map Call.repositoryName?
        = repos.map (fun repo => repo.RepositoryName)) ∧
    ((RemoveOldImages t kubeClient ecrClient h w).isPanic = true ↔
      ∃ pods w1 repos w2,
        kubeClient.ListAllPods t.KubeNamespaces w = (.ok pods, w1) ∧
        ecrClient.ListRepositories t.EcrRepositories w1 = (.ok repos, w2) ∧
        ∃ repo ∈ repos, repo.RepositoryName = none) := by
  have hiff : (RemoveOldImages t kubeClient ecrClient h w).isPanic = true ↔
      ∃ pods w1 repos w2,
        kubeClient.ListAllPods t.KubeNamespaces w = (.ok pods, w1) ∧
        ecrClient.ListRepositories t.EcrRepositories w1 = (.ok repos, w2) ∧
        ∃ repo ∈ repos, repo.RepositoryName = none := by
    constructor
    · intro hp
      rcases hpods : kubeClient.ListAllPods t.KubeNamespaces w with ⟨res, w1⟩
      cases res with
      | error e =>
        have := (RemoveOldImages_pods_abort t kubeClient ecrClient h w w1 e hpods).1
        rw [hp] at this; cases this
      | ok pods =>
        rcases hrepos : ecrClient.ListRepositories t.EcrRepositories w1 with ⟨res, w2⟩
        cases res with
        | error e =>
          have := (RemoveOldImages_repositories_abort t kubeClient ecrClient h w w1 w2 pods e
            hpods hrepos).1
          rw [hp] at this; cases this
        | ok repos =>
          obtain ⟨vs, -, -, -, -, hshape⟩ :=
            RemoveOldImages_visits t kubeClient ecrClient h w w1 w2 pods repos hpods hrepos
          rcases hshape with ⟨hq, -⟩ | ⟨-, post, hr⟩
          · rw [hp] at hq; cases hq
          · exact ⟨pods, w1, repos, w2, rfl, hrepos, ⟨none⟩, by rw [hr]; simp, rfl⟩
    · rintro ⟨pods, w1, repos, w2, hpods, hrepos, repo, hmem, hnone⟩
      obtain ⟨vs, -, -, -, -, hshape⟩ :=
        RemoveOldImages_visits t kubeClient ecrClient h w w1 w2 pods repos hpods hrepos
      rcases hshape with ⟨-, hr⟩ | ⟨hq, -⟩
      · rw [hr] at hmem
        obtain ⟨v, -, rfl⟩ := List.mem_map.mp hmem
        simp [Visit.repository] at hnone
      · exact hq
  refine ⟨?_, ?_, hiff⟩
  · intro hnamed
    have hret : (RemoveOldImages t kubeClient ecrClient h w).isPanic = false := by
      cases hq : (RemoveOldImages t kubeClient ecrClient h w).isPanic with
      | false => rfl
      | true =>
        obtain ⟨pods, w1, repos, w2, hpods, hrepos, repo, hmem, hnone⟩ := hiff.mp hq
        exact absurd hnone (hnamed pods w1 repos w2 hpods hrepos repo hmem)
    refine ⟨hret, ?_⟩
    rcases hpods : kubeClient.ListAllPods t.KubeNamespaces w with ⟨res, w1⟩
    cases res with
    | error e =>
      rw [(RemoveOldImages_pods_abort t kubeClient ecrClient h w w1 e hpods).2]
      simp
    | ok pods =>
      rcases hrepos : ecrClient.ListRepositories t.EcrRepositories w1 with ⟨res, w2⟩
      cases res with
      | error e =>
        rw [(RemoveOldImages_repositories_abort t kubeClient ecrClient h w w1 w2 pods e
          hpods hrepos).2]
        simp
      | ok repos =>
        obtain ⟨vs, -, -, -, hne, -⟩ :=
          RemoveOldImages_visits t kubeClient ecrClient h w w1 w2 pods repos hpods hrepos
        exact hne
  · intro pods w1 repos w2 hpods hrepos hnamed
    obtain ⟨vs, -, hc, -, -, hshape⟩ :=
      RemoveOldImages_visits t kubeClient ecrClient h w w1 w2 pods repos hpods hrepos
    have hr : repos = vs.map Visit.repository := by
      rcases hshape with ⟨-, hr⟩ | ⟨-, post, hr⟩
      · exact hr
      · exact absurd rfl (hnamed ⟨none⟩ (by rw [hr]; simp))
    rw [hc, List.filter_append, List.map_append, listImages_of_visits, ← hr]
    simp [Call.isListImages]

/-- Witness for C10: the example registry names its three repositories and the
pass returns; the registry with an unnamed second entry makes it panic. -/
theorem RemoveOldImages_total_witness :
    ((RemoveOldImages exTask exKube exEcr exHelpers 0).isPanic = false ∧
      (RemoveOldImages exTask exKube exEcr exHelpers 0).state.errors ≠ .nil) ∧
    (RemoveOldImages exTask exKube exEcrUnnamed exHelpers 0).isPanic = true :=
  ⟨(RemoveOldImages_total exTask exKube exEcr exHelpers 0).1 (by
      intro pods w1 repos w2 _ hr repo hmem
      simp only [exEcr, Prod.mk.injEq, Except.ok.injEq] at hr
      obtain ⟨rfl, -⟩ := hr
      simp only [List.mem_cons, List.mem_singleton, List.not_mem_nil, or_false] at hmem
      rcases hmem with rfl | rfl | rfl <;> simp),
    (RemoveOldImages_total exTask exKube exEcrUnnamed exHelpers 0).2.2.mpr
      ⟨[5, 7], 1, [⟨some "app"⟩, ⟨none⟩, ⟨some "db"⟩], 2, rfl, rfl, ⟨none⟩,
        List.Mem.tail _ (List.Mem.head _), rfl⟩⟩

/-! ## A failure at one repository -/

/-- C5: let the list of repositories be `pre ++ r :: post`, let the loop over
`pre` have returned in state `st1`, and let the visit of `r` list its
inventory, compute a deletion set that is not empty, and have its
`BatchRemoveImages` call fail with `e`.  Then the pass is the loop over the
remaining repositories `post`, started on the log extended by the two calls
for `r` and on `errors` extended by exactly one error, naming `r`.  The rest
of the log is the calls of regular visits of the repositories after `r`, in
order (all of them when they are named): each has its inventory fetched,
and its deletion call issued when its deletion set is not empty. -/
theorem RemoveOldImages_removal_failure {σ Pod Image Ident : Type} (t : CleanupTask)
    (kubeClient : KubernetesClient σ Pod) (ecrClient : ECRClient σ Image)
    (h : Helpers Pod Image Ident) (w w1 w2 wl wb : σ) (pods : List Pod)
    (pre post : List Repository) (r : String) (st1 : PassState σ Pod Image)
    (images : List Image) (e : GoError)
    (hpods : kubeClient.ListAllPods t.KubeNamespaces w = (.ok pods, w1))
    (hrepos : ecrClient.ListRepositories t.EcrRepositories w1
      = (.ok (pre ++ ⟨some r⟩ :: post), w2))
    (hpre : forRepos t ecrClient h (h.ECRImagesFromPods t.AwsRegion pods) pre
      (loopEntry t pods (pre ++ ⟨some r⟩ :: post) w2) = .returned st1)
    (hlist : ecrClient.ListImages r st1.world = (.ok images, wl))
    (hne : h.FilterOldUnusedImages t.MaxImages images
      ((h.ECRImagesFromPods t.AwsRegion pods).index r) ≠ [])
    (hbatch : ecrClient.BatchRemoveImages r
      (h.FilterOldUnusedImages t.MaxImages images
        ((h.ECRImagesFromPods t.AwsRegion pods).index r)) wl = (some e, wb)) :
    RemoveOldImages t kubeClient ecrClient h w
      = forRepos t ecrClient h (h.ECRImagesFromPods t.AwsRegion pods) post
          { world := wb
            calls := st1.calls ++ [.ListImages r (.ok images),
              .BatchRemoveImages r
                (h.FilterOldUnusedImages t.MaxImages images
                  ((h.ECRImagesFromPods t.AwsRegion pods).index r)) (some e)]
            errors := st1.errors.append
              ⟨"Could not batch remove images from repo '" ++ r ++ "': " ++ e.msg⟩ } ∧
    ∃ vs : List (Visit Image),
      (∀ v ∈ vs, v.Regular t h (h.ECRImagesFromPods t.AwsRegion pods)) ∧
      vs.map Visit.repository <+: post ∧
      ((∀ repo ∈ post, repo.RepositoryName ≠ none) →
        (RemoveOldImages t kubeClient ecrClient h w).isPanic = false ∧
        vs.map Visit.repository = post) ∧
      (RemoveOldImages t kubeClient ecrClient h w).state.calls
        = st1.calls ++ [.ListImages r (.ok images),
            .BatchRemoveImages r
              (h.FilterOldUnusedImages t.MaxImages images
                ((h.ECRImagesFromPods t.AwsRegion pods).index r)) (some e)]
          ++ vs.flatMap Visit.calls ∧
      (RemoveOldImages t kubeClient ecrClient h w).state.errors.toList
        = st1.errors.toList
          ++ [⟨"Could not batch remove images from repo '" ++ r ++ "': " ++ e.msg⟩]
          ++ vs.filterMap Visit.error := by
  have hlen : ¬ (h.FilterOldUnusedImages t.MaxImages images
      ((h.ECRImagesFromPods t.AwsRegion pods).index r)).length = 0 :=
    fun hc => hne (List.length_eq_zero.mp hc)
  have heq : RemoveOldImages t kubeClient ecrClient h w
      = forRepos t ecrClient h (h.ECRImagesFromPods t.AwsRegion pods) post
          { world := wb
            calls := st1.calls ++ [.ListImages r (.ok images),
              .BatchRemoveImages r
                (h.FilterOldUnusedImages t.MaxImages images
                  ((h.ECRImagesFromPods t.AwsRegion pods).index r)) (some e)]
            errors := st1.errors.append
              ⟨"Could not batch remove images from repo '" ++ r ++ "': " ++ e.msg⟩ } := by
    rw [RemoveOldImages_eq_loop t kubeClient ecrClient h w w1 w2 pods _ hpods hrepos,
      forRepos_append, hpre]
    simp only [forRepos_cons, processRepo, hlist, hlen, if_false, hbatch]
  refine ⟨heq, ?_⟩
  obtain ⟨vs, hreg, hpfx, hnamed, hc, he, -⟩ :=
    forRepos_rest t ecrClient h (h.ECRImagesFromPods t.AwsRegion pods) post
      { world := wb
        calls := st1.calls ++ [.ListImages r (.ok images),
          .BatchRemoveImages r
            (h.FilterOldUnusedImages t.MaxImages images
              ((h.ECRImagesFromPods t.AwsRegion pods).index r)) (some e)]
        errors := st1.errors.append
          ⟨"Could not batch remove images from repo '" ++ r ++ "': " ++ e.msg⟩ }
  rw [heq]
  exact ⟨vs, hreg, hpfx, hnamed, hc, by simpa [Slice.toList_append] using he⟩

/-- Witness for C5 on the example registry listed as `web`, `db`, `app`:
deleting from `db` fails after `web` was visited, exactly one error naming
`db` is appended, and the pass goes on to `app`, whose inventory is listed
and whose deletion call is issued. -/
theorem RemoveOldImages_removal_failure_witness :
    exEcrReordered.ListImages "db" exAfterWebFirst.world = (.ok [4, 3, 2], 4) ∧
    exEcrReordered.BatchRemoveImages "db" [2] 4 = (some ⟨"throttled"⟩, 5) ∧
    RemoveOldImages exTask exKube exEcrReordered exHelpers 0
      = .returned
          { world := 7
            calls := exAfterWebFirst.calls ++
              [.ListImages "db" (.ok [4, 3, 2]),
               .BatchRemoveImages "db" [2] (some ⟨"throttled"⟩),
               .ListImages "app" (.ok [9, 7, 5, 3, 1]),
               .BatchRemoveImages "app" [1] none]
            errors := .mk [⟨"Cannot list images from repo 'web': denied"⟩,
              ⟨"Could not batch remove images from repo 'db': throttled"⟩] } ∧
    (RemoveOldImages exTask exKube exEcrReordered exHelpers 0).isPanic = false :=
  ⟨rfl, rfl,
    (RemoveOldImages_removal_failure exTask exKube exEcrReordered exHelpers 0 1 2 4 5 [5, 7]
      [⟨some "web"⟩] [⟨some "app"⟩] "db" exAfterWebFirst [4, 3, 2] ⟨"throttled"⟩
      rfl rfl rfl rfl (by decide) rfl).1.trans rfl,
    (RemoveOldImages_removal_failure exTask exKube exEcrReordered exHelpers 0 1 2 4 5 [5, 7]
      [⟨some "web"⟩] [⟨some "app"⟩] "db" exAfterWebFirst [4, 3, 2] ⟨"throttled"⟩
      rfl rfl rfl rfl (by decide) rfl).2.elim
      (fun _ hvs => (hvs.2.2.1 (by decide)).1)⟩

/-- C4: let the list of repositories be `pre ++ r :: post`, let the loop over
`pre` have returned in state `st1`, and let the `ListImages` call for `r`
fail with `e`.  Then
(1) the pass is the loop over the remaining repositories `post`, started on
the log extended by that one `ListImages` call (no `BatchRemoveImages` call
for `r`) and on `errors` extended by exactly one error, naming `r`;
(2) the rest of the log is the calls of regular visits of the repositories
after `r`, in order (all of them when they are named);
(3) for any other registry client `ecr'` (such as one whose inventory call
for `r` succeeds) that returns the same list of repositories and whose
worlds stay related to those of `ecrClient` by a relation hiding `r`, the
calls about every repository other than `r` are the same in the two passes;
(4) when the repositories after `r` are named and this is the only failed
call of the pass (as when one of three inventory calls fails and nothing
else does), the pass returns exactly one error, the one naming `r`. -/
theorem RemoveOldImages_inventory_failure {σ Pod Image Ident : Type} (t : CleanupTask)
    (kubeClient : KubernetesClient σ Pod) (ecrClient : ECRClient σ Image)
    (h : Helpers Pod Image Ident) (w w1 w2 wl : σ) (pods : List Pod)
    (pre post : List Repository) (r : String) (st1 : PassState σ Pod Image) (e : GoError)
    (hpods : kubeClient.ListAllPods t.KubeNamespaces w = (.ok pods, w1))
    (hrepos : ecrClient.ListRepositories t.EcrRepositories w1
      = (.ok (pre ++ ⟨some r⟩ :: post), w2))
    (hpre : forRepos t ecrClient h (h.ECRImagesFromPods t.AwsRegion pods) pre
      (loopEntry t pods (pre ++ ⟨some r⟩ :: post) w2) = .returned st1)
    (hlist : ecrClient.ListImages r st1.world = (.error e, wl)) :
    RemoveOldImages t kubeClient ecrClient h w
      = forRepos t ecrClient h (h.ECRImagesFromPods t.AwsRegion pods) post
          { world := wl
            calls := st1.calls ++ [.ListImages r (.error e)]
            errors := st1.errors.append
              ⟨"Cannot list images from repo '" ++ r ++ "': " ++ e.msg⟩ } ∧
    (∃ vs : List (Visit Image),
      (∀ v ∈ vs, v.Regular t h (h.ECRImagesFromPods t.AwsRegion pods)) ∧
      vs.map Visit.repository <+: post ∧
      ((∀ repo ∈ post, repo.RepositoryName ≠ none) →
        (RemoveOldImages t kubeClient ecrClient h w).isPanic = false ∧
        vs.map Visit.repository = post) ∧
      (RemoveOldImages t kubeClient ecrClient h w).state.calls
        = st1.calls ++ [.ListImages r (.error e)] ++ vs.flatMap Visit.calls ∧
      (RemoveOldImages t kubeClient ecrClient h w).state.errors.toList
        = st1.errors.toList
          ++ [⟨"Cannot list images from repo '" ++ r ++ "': " ++ e.msg⟩]
          ++ vs.filterMap Visit.error) ∧
    (∀ (ecr' : ECRClient σ Image) (R : σ → σ → Prop) (w2' : σ),
      ecr'.ListRepositories t.EcrRepositories w1 = (.ok (pre ++ ⟨some r⟩ :: post), w2') →
      R w2 w2' → Isolates r ecrClient ecr' R →
      ∀ r', r' ≠ r →
        (RemoveOldImages t kubeClient ecrClient h w).state.calls.filter (Call.isAbout r')
          = (RemoveOldImages t kubeClient ecr' h w).state.calls.filter (Call.isAbout r')) ∧
    ((∀ repo ∈ post, repo.RepositoryName ≠ none) →
      (RemoveOldImages t kubeClient ecrClient h w).state.calls.countP Call.failed = 1 →
      (RemoveOldImages t kubeClient ecrClient h w).isPanic = false ∧
      (RemoveOldImages t kubeClient ecrClient h w).state.errors
        = .mk [⟨"Cannot list images from repo '" ++ r ++ "': " ++ e.msg⟩]) := by
  have heq : RemoveOldImages t kubeClient ecrClient h w
      = forRepos t ecrClient h (h.ECRImagesFromPods t.AwsRegion pods) post
          { world := wl
            calls := st1.calls ++ [.ListImages r (.error e)]
            errors := st1.errors.append
              ⟨"Cannot list images from repo '" ++ r ++ "': " ++ e.msg⟩ } := by
    rw [RemoveOldImages_eq_loop t kubeClient ecrClient h w w1 w2 pods _ hpods hrepos,
      forRepos_append, hpre]
    simp only [forRepos_cons, processRepo, hlist]
  obtain ⟨vs, hreg, hpfx, hnamed, hc, he, hnn⟩ :=
    forRepos_rest t ecrClient h (h.ECRImagesFromPods t.AwsRegion pods) post
      { world := wl
        calls := st1.calls ++ [.ListImages r (.error e)]
        errors := st1.errors.append
          ⟨"Cannot list images from repo '" ++ r ++ "': " ++ e.msg⟩ }
  have he' : (RemoveOldImages t kubeClient ecrClient h w).state.errors.toList
      = st1.errors.toList
        ++ [⟨"Cannot list images from repo '" ++ r ++ "': " ++ e.msg⟩]
        ++ vs.filterMap Visit.error := by
    rw [heq]
    simpa [Slice.toList_append] using he
  have hc' : (RemoveOldImages t kubeClient ecrClient h w).state.calls
      = st1.calls ++ [.ListImages r (.error e)] ++ vs.flatMap Visit.calls := by
    rw [heq]
    exact hc
  refine ⟨heq, ⟨vs, hreg, hpfx, ?_, hc', he'⟩, ?_, ?_⟩
  · rw [heq]
    exact hnamed
  · intro ecr' R w2' hrepos' hR hiso r' hr'
    rw [RemoveOldImages_eq_loop t kubeClient ecrClient h w w1 w2 pods _ hpods hrepos,
      RemoveOldImages_eq_loop t kubeClient ecr' h w w1 w2' pods _ hpods hrepos']
    exact forRepos_isolated t ecrClient ecr' h _ r R hiso r' hr' _ _ _ hR rfl
  · intro hpost hcount
    obtain ⟨vsPre, hregPre, -, -, hcPre, hePre, hnnPre⟩ :=
      forRepos_rest t ecrClient h (h.ECRImagesFromPods t.AwsRegion pods) pre
        (loopEntry t pods (pre ++ ⟨some r⟩ :: post) w2)
    rw [hpre] at hcPre hePre hnnPre
    have hcPre : st1.calls
        = [.ListAllPods t.KubeNamespaces (.ok pods),
            .ListRepositories t.EcrRepositories (.ok (pre ++ ⟨some r⟩ :: post))]
          ++ vsPre.flatMap Visit.calls := hcPre
    have hePre : st1.errors.toList = vsPre.filterMap Visit.error := hePre
    have hlenPre := @errors_length_of_visits Pod Image Ident t h _ vsPre hregPre
    have hlenPost := @errors_length_of_visits Pod Image Ident t h _ vs hreg
    rw [hc', hcPre] at hcount
    simp only [List.countP_append, List.countP_cons, List.countP_nil, Call.failed] at hcount
    have hpre0 : vsPre.filterMap Visit.error = [] := by
      apply List.eq_nil_of_length_eq_zero
      rw [hlenPre]
      simp at hcount
      omega
    have hpost0 : vs.filterMap Visit.error = [] := by
      apply List.eq_nil_of_length_eq_zero
      rw [hlenPost]
      simp at hcount
      omega
    refine ⟨by rw [heq]; exact (hnamed hpost).1, ?_⟩
    apply Slice.eq_mk_of_toList
    · rw [heq]
      exact hnn (Slice.append_ne_nil _ _)
    · rw [he', hePre, hpre0, hpost0]
      rfl

/-- Witness for C4 on the example registry where the inventory of `web`, the
second of three repositories, is the only call that fails: the pass returns
exactly the error naming `web`, and the calls about `db` are those of the
pass against the registry whose `web` inventory can be listed. -/
theorem RemoveOldImages_inventory_failure_witness :
    exEcrWebDown.ListImages "web" exAfterApp.world = (.error ⟨"denied"⟩, 5) ∧
    ((RemoveOldImages exTask exKube exEcrWebDown exHelpers 0).isPanic = false ∧
      (RemoveOldImages exTask exKube exEcrWebDown exHelpers 0).state.errors
        = .mk [⟨"Cannot list images from repo '" ++ "web" ++ "': " ++ "denied"⟩]) ∧
    (RemoveOldImages exTask exKube exEcrWebDown exHelpers 0).state.calls.filter
        (Call.isAbout "db")
      = (RemoveOldImages exTask exKube exEcrWebUp exHelpers 0).state.calls.filter
        (Call.isAbout "db") :=
  ⟨rfl,
    (RemoveOldImages_inventory_failure exTask exKube exEcrWebDown exHelpers 0 1 2 5 [5, 7]
      [⟨some "app"⟩] [⟨some "db"⟩] "web" exAfterApp ⟨"denied"⟩ rfl rfl rfl rfl).2.2.2
      (by decide) rfl,
    (RemoveOldImages_inventory_failure exTask exKube exEcrWebDown exHelpers 0 1 2 5 [5, 7]
      [⟨some "app"⟩] [⟨some "db"⟩] "web" exAfterApp ⟨"denied"⟩ rfl rfl rfl rfl).2.2.1
      exEcrWebUp (fun _ _ => True) 2 rfl trivial
      { listImages := fun n hn a b _ => by
          simp [exEcrWebUp, exEcrWebDown, exEcr, hn]
          split <;> simp
        batchRemoveImages := fun n _ imgs a b _ => by
          simp [exEcrWebUp, exEcrWebDown]
        listLeft := fun _ _ _ => trivial
        removeLeft := fun _ _ _ _ => trivial
        listRight := fun _ _ _ => trivial
        removeRight := fun _ _ _ _ => trivial }
      "db" (by decide)⟩

/-! ## The scheduler -/

/-- A goroutine that has stopped, exited or crashed takes no further step. -/
theorem loopStep_not_running {σ Pod Image Ident : Type} (t : CleanupTask)
    (kubeClient : KubernetesClient σ Pod) (ecrClient : ECRClient σ Image)
    (h : Helpers Pod Image Ident) (s : LoopState σ Pod Image) (ev : Event)
    (hs : s.phase ≠ .Running) : loopStep t kubeClient ecrClient h s ev = s := by
  unfold loopStep
  split
  · rename_i hrun
    exact absurd hrun hs
  · rfl

/-- Once the goroutine is not running, no sequence of events changes its
state. -/
theorem foldl_loopStep_not_running {σ Pod Image Ident : Type} (t : CleanupTask)
    (kubeClient : KubernetesClient σ Pod) (ecrClient : ECRClient σ Image)
    (h : Helpers Pod Image Ident) (events : List Event) (s : LoopState σ Pod Image)
    (hs : s.phase ≠ .Running) :
    events.foldl (loopStep t kubeClient ecrClient h) s = s := by
  induction events with
  | nil => rfl
  | cons ev rest ih =>
    rw [List.foldl_cons, loopStep_not_running t kubeClient ecrClient h s ev hs]
    exact ih

/-- No turn of the loop reaches or leaves the `Exited` phase. -/
theorem loopStep_isExited {σ Pod Image Ident : Type} (t : CleanupTask)
    (kubeClient : KubernetesClient σ Pod) (ecrClient : ECRClient σ Image)
    (h : Helpers Pod Image Ident) (s : LoopState σ Pod Image) (ev : Event) :
    (loopStep t kubeClient ecrClient h s ev).phase.isExited = s.phase.isExited := by
  by_cases hs : s.phase = .Running
  · cases ev with
    | intervalElapsed =>
      cases hp : RemoveOldImages t kubeClient ecrClient h s.world <;>
        simp [loopStep, hs, hp, Phase.isExited]
    | stopSignal => simp [loopStep, hs, Phase.isExited]
  · rw [loopStep_not_running t kubeClient ecrClient h s ev hs]

theorem foldl_loopStep_isExited {σ Pod Image Ident : Type} (t : CleanupTask)
    (kubeClient : KubernetesClient σ Pod) (ecrClient : ECRClient σ Image)
    (h : Helpers Pod Image Ident) (events : List Event) (s : LoopState σ Pod Image) :
    (events.foldl (loopStep t kubeClient ecrClient h) s).phase.isExited
      = s.phase.isExited := by
  induction events generalizing s with
  | nil => rfl
  | cons ev rest ih =>
    rw [List.foldl_cons, ih, loopStep_isExited]

/-- C8: for a goroutine in phase `Running`:
(1) on `interval elapsed`, when the pass started in the current world returns
the state `st` (whatever list of errors `st.errors` is), the goroutine is
again in `Running`, exactly one pass was run (the pass counter grew by one
and the log grew by the calls of that one pass), and the errors of the pass
were logged;
(2) on `stop signal` the goroutine moves to `Stopped`, calls `wg.Done()`
once, and starts no pass (counter, log and world unchanged);
(3) `Stopped` is terminal: after the stop signal was taken, no sequence of
events changes the state, so no pass is started. -/
theorem loopStep_running {σ Pod Image Ident : Type} (t : CleanupTask)
    (kubeClient : KubernetesClient σ Pod) (ecrClient : ECRClient σ Image)
    (h : Helpers Pod Image Ident) (s : LoopState σ Pod Image)
    (hrun : s.phase = .Running) :
    (∀ st, RemoveOldImages t kubeClient ecrClient h s.world = .returned st →
      (loopStep t kubeClient ecrClient h s .intervalElapsed).phase = .Running ∧
      (loopStep t kubeClient ecrClient h s .intervalElapsed).passes = s.passes + 1 ∧
      (loopStep t kubeClient ecrClient h s .intervalElapsed).calls = s.calls ++ st.calls ∧
      (loopStep t kubeClient ecrClient h s .intervalElapsed).world = st.world ∧
      (loopStep t kubeClient ecrClient h s .intervalElapsed).logged
        = s.logged ++ st.errors.toList) ∧
    ((loopStep t kubeClient ecrClient h s .stopSignal).phase = .Stopped ∧
      (loopStep t kubeClient ecrClient h s .stopSignal).passes = s.passes ∧
      (loopStep t kubeClient ecrClient h s .stopSignal).calls = s.calls ∧
      (loopStep t kubeClient ecrClient h s .stopSignal).world = s.world ∧
      (loopStep t kubeClient ecrClient h s .stopSignal).wgDone = s.wgDone + 1) ∧
    (∀ events : List Event,
      events.foldl (loopStep t kubeClient ecrClient h)
          (loopStep t kubeClient ecrClient h s .stopSignal)
        = loopStep t kubeClient ecrClient h s .stopSignal) := by
  refine ⟨?_, ?_, ?_⟩
  · intro st hst
    refine ⟨?_, ?_, ?_, ?_, ?_⟩ <;> simp only [loopStep, hrun, hst]
    by_cases hlen : st.errors.len > 0
    · simp [hlen]
    · have : st.errors.toList = [] := by
        apply List.eq_nil_of_length_eq_zero
        simpa [Slice.len] using hlen
      simp [hlen, this]
  · simp [loopStep, hrun]
  · intro events
    apply foldl_loopStep_not_running
    simp [loopStep, hrun]

/-- Witness for C8 on the example registry: a pass that returns two errors
leaves the goroutine running, with one more pass counted. -/
theorem loopStep_running_witness :
    exRunning.phase = .Running ∧
    (RemoveOldImages exTask exKube exEcr exHelpers exRunning.world).state.errors.len = 2 ∧
    (loopStep exTask exKube exEcr exHelpers exRunning .intervalElapsed).phase = .Running ∧
    (loopStep exTask exKube exEcr exHelpers exRunning .intervalElapsed).passes = 2 :=
  ⟨rfl, rfl,
    ((loopStep_running exTask exKube exEcr exHelpers exRunning rfl).1
      (RemoveOldImages exTask exKube exEcr exHelpers exRunning.world).state rfl).1,
    ((loopStep_running exTask exKube exEcr exHelpers exRunning rfl).1
      (RemoveOldImages exTask exKube exEcr exHelpers exRunning.world).state rfl).2.1⟩

/-- Counterexample to C9 as stated: when the cluster client cannot be
constructed, `ImageCleanupLoop` ends the process with `glog.Fatalf` before
any pass. -/
theorem ImageCleanupLoop_fatal_on_client_error :
    (ImageCleanupLoop exTask exNoKube exHelpers 0 [.intervalElapsed]).phase
      = .Exited "Cannot create Kubernetes client: no kubeconfig" ∧
    (ImageCleanupLoop exTask exNoKube exHelpers 0 [.intervalElapsed]).passes = 0 :=
  ⟨rfl, rfl⟩

/-- C9, amended: `ImageCleanupLoop` ends the process with `glog.Fatalf`
exactly when the cluster client cannot be constructed, or it can and the
registry client cannot.  Once both clients are constructed, no turn of the
loop ends the process that way, and a pass that returns, whatever its list
of errors, leaves the goroutine in `Running`. -/
theorem ImageCleanupLoop_exits_iff {σ Pod Image Ident : Type} (t : CleanupTask)
    (c : Constructors σ Pod Image) (h : Helpers Pod Image Ident) (w : σ)
    (events : List Event) :
    ((ImageCleanupLoop t c h w events).phase.isExited = true ↔
      (∃ e, c.NewKubernetesClient t.KubeConfig = .error e) ∨
      (∃ kubeClient e, c.NewKubernetesClient t.KubeConfig = .ok kubeClient ∧
        c.NewECRClient t.AwsRegion = .error e)) ∧
    (∀ (kubeClient : KubernetesClient σ Pod) (ecrClient : ECRClient σ Image)
        (s : LoopState σ Pod Image) (ev : Event),
      (loopStep t kubeClient ecrClient h s ev).phase.isExited = s.phase.isExited) ∧
    (∀ (kubeClient : KubernetesClient σ Pod) (ecrClient : ECRClient σ Image)
        (s : LoopState σ Pod Image) (st : PassState σ Pod Image),
      s.phase = .Running →
      RemoveOldImages t kubeClient ecrClient h s.world = .returned st →
      (loopStep t kubeClient ecrClient h s .intervalElapsed).phase = .Running) := by
  refine ⟨?_, fun kubeClient ecrClient s ev => loopStep_isExited t kubeClient ecrClient h s ev,
    ?_⟩
  · cases hk : c.NewKubernetesClient t.KubeConfig with
    | error e => simp [ImageCleanupLoop, hk, Phase.isExited]
    | ok kubeClient =>
      cases he : c.NewECRClient t.AwsRegion with
      | error e => simp [ImageCleanupLoop, hk, he, Phase.isExited]
      | ok ecrClient =>
        have hf := foldl_loopStep_isExited t kubeClient ecrClient h events
          { phase := .Running, world := w, passes := 0, calls := [], logged := [], wgDone := 0 }
        simp only [ImageCleanupLoop, hk, he]
        rw [hf]
        simp [Phase.isExited]
  · intro kubeClient ecrClient s st hrun hst
    simp [loopStep, hrun, hst]

end Core
